import Mathlib

/-!
# Verification of the periodic-grid / running-ledger core of technicien-app

Shallow embedding of the Rust/SQLite core of the repository:

* `src/src-tauri/src/commands/suivi_quotidien_commands.rs`
  (`upsert_suivi_quotidien_field`),
* `src/src-tauri/src/repositories/suivi_quotidien_repository.rs`
  (`create`, `update`, `get_by_id`, `get_by_semaine`),
* `src/src-tauri/src/services/semaine_service.rs`
  (`get_full_semaines_by_batiment`),
* `src/src-tauri/src/repositories/batiment_repository.rs` (`delete`),
* the SQLite schema in `src/src-tauri/src/database/mod.rs`
  (`CHECK (age > 0)`, `UNIQUE(semaine_id, age)`,
  `UNIQUE(batiment_id, numero_semaine)`,
  `CHECK (numero_semaine BETWEEN 1 AND 9)`, foreign keys with
  `PRAGMA foreign_keys = ON`).

Modelling conventions:

* The SQLite database is a record of lists of rows plus the AUTOINCREMENT
  counters.  Every operation takes the database and returns the final
  database paired with an `Except` result.  Each single SQL statement of
  the source runs in autocommit mode (the upsert command opens no
  transaction), so an operation that fails midway returns the state
  containing all statements already executed; `BatimentRepository::delete`
  is the one operation that opens an explicit transaction, and its error
  results return the original (rolled-back) state.
* Rust `f64` values are modelled as `Rat`.  Every numeric computation the
  claims exercise (`x - y`, `x * 50`, comparison with `0`) is exact in
  binary floating point for the decimal inputs considered, so `Rat`
  arithmetic coincides with `f64` arithmetic on them.  `str::parse::<f64>`
  is modelled on its finite decimal fragment (optional sign, digits,
  optional fractional part); exponent notation and `inf`/`NaN` inputs are
  not modelled.
* `i64`/`i32` are modelled as `Int` with the range check of
  `str::parse` kept in the parsers.
* Error values are modelled structurally (the Tauri command stringifies
  them with `format!`; the payloads recorded here are exactly the data
  interpolated into those strings).
-/

namespace TechnicienApp

/-! ## Kernel-computable rational arithmetic

Mathlib marks `Rat.sub`, `Rat.mul` and `Rat.neg` irreducible, which stops
concrete runs of the embedded operations from evaluating inside proofs.
The embedding therefore uses the following `mkRat`-based forms, each
proved equal to the corresponding `Rat` operation, so symbolic reasoning
can switch to ordinary field arithmetic at will. -/

/-- `a - b` on `Rat`, in evaluable form (see `ratSub_eq`). -/
def ratSub (a b : Rat) : Rat :=
  mkRat (a.num * (b.den : Int) - b.num * (a.den : Int)) (a.den * b.den)

/-- `a * b` on `Rat`, in evaluable form (see `ratMul_eq`). -/
def ratMul (a b : Rat) : Rat :=
  mkRat (a.num * b.num) (a.den * b.den)

/-- `-a` on `Rat`, in evaluable form (see `ratNeg_eq`). -/
def ratNeg (a : Rat) : Rat :=
  mkRat (-a.num) a.den

/-! ## Parsing (`str::parse::<i64>`, `str::parse::<i32>`, `str::parse::<f64>`) -/

/-- Digits of a nonempty all-digit string interpreted in base 10. -/
def digitsVal (cs : List Char) : Nat :=
  cs.foldl (fun a c => a * 10 + (c.toNat - 48)) 0

/-- Parse an unsigned run of digits; `none` unless the string is a nonempty
run of ASCII digits. -/
def parseDigits (cs : List Char) : Option Nat :=
  if cs ≠ [] ∧ cs.all Char.isDigit then some (digitsVal cs) else none

/-- Signed integer grammar shared by `parse::<i64>` and `parse::<i32>`:
optional `+`/`-` sign followed by digits. -/
def parseIntRaw (s : String) : Option Int :=
  match s.data with
  | [] => none
  | '+' :: rest => (parseDigits rest).map Int.ofNat
  | '-' :: rest => (parseDigits rest).map (fun n => -(Int.ofNat n : Int))
  | cs => (parseDigits cs).map Int.ofNat

/-- Models Rust `str::parse::<i64>` (range-checked). -/
def parseI64 (s : String) : Option Int :=
  (parseIntRaw s).bind (fun n =>
    if -(2 ^ 63) ≤ n ∧ n < 2 ^ 63 then some n else none)

/-- Models Rust `str::parse::<i32>` (range-checked). -/
def parseI32 (s : String) : Option Int :=
  (parseIntRaw s).bind (fun n =>
    if -(2 ^ 31) ≤ n ∧ n < 2 ^ 31 then some n else none)

/-- Value of `i.f` where `i` is the integer digit run and `f` the
fractional digit run: the exact rational `(i * 10^k + f) / 10^k`. -/
def decimalVal (intPart fracPart : List Char) : Rat :=
  mkRat (digitsVal (intPart ++ fracPart) : Int) (10 ^ fracPart.length)

/-- Unsigned decimal: digits, optionally a point and more digits; at least
one digit overall (Rust accepts `1.`, `.5`, rejects `.` and `` ). -/
def parseUnsignedDec (cs : List Char) : Option Rat :=
  match cs.splitOn '.' with
  | [intPart] =>
      if intPart ≠ [] ∧ intPart.all Char.isDigit then some (decimalVal intPart []) else none
  | [intPart, fracPart] =>
      if (intPart ≠ [] ∨ fracPart ≠ []) ∧ intPart.all Char.isDigit ∧ fracPart.all Char.isDigit then
        some (decimalVal intPart fracPart)
      else none
  | _ => none

/-- Models Rust `str::parse::<f64>` on the finite decimal fragment
(see the module docstring); the result is the exactly-represented
rational value. -/
def parseF64 (s : String) : Option Rat :=
  match s.data with
  | [] => none
  | '+' :: rest => parseUnsignedDec rest
  | '-' :: rest => (parseUnsignedDec rest).map ratNeg
  | cs => parseUnsignedDec cs

/-! ## Data model (tables of `database/mod.rs`) -/

/-- A row of the `bandes` table; only the columns the verified operations
read or write are kept (`alimentation_contour REAL NOT NULL`). -/
structure BandeRow where
  id : Int
  alimentation_contour : Rat
  deriving Repr, DecidableEq

/-- A row of the `batiments` table (columns relevant to the core). -/
structure BatimentRow where
  id : Int
  bande_id : Int
  deriving Repr, DecidableEq

/-- A row of the `semaines` table. -/
structure SemaineRow where
  id : Int
  batiment_id : Int
  numero_semaine : Int
  poids : Option Rat
  deriving Repr, DecidableEq

/-- A row of the `suivi_quotidien` table. -/
structure SuiviRow where
  id : Int
  semaine_id : Int
  age : Int
  deces_par_jour : Option Int
  alimentation_par_jour : Option Rat
  soins_id : Option Int
  soins_quantite : Option String
  analyses : Option String
  remarques : Option String
  deriving Repr, DecidableEq

/-- A row of the `soins` catalog (only `id` and `nom` are consulted). -/
structure SoinRow where
  id : Int
  nom : String
  deriving Repr, DecidableEq

/-- The SQLite database state.  `next_suivi_id` / `next_semaine_id` model
the AUTOINCREMENT counters of the two tables the verified operations
insert into. -/
structure DB where
  bandes : List BandeRow
  batiments : List BatimentRow
  semaines : List SemaineRow
  suivi_quotidien : List SuiviRow
  soins : List SoinRow
  batiment_maladies : List (Int × Int)
  next_suivi_id : Int
  next_semaine_id : Int
  deriving Repr, DecidableEq

/-! ## Row lookups (the SQL `SELECT`s used by the core) -/

/-- `SELECT ... FROM semaines WHERE id = ?` (row or no row). -/
def findSemaine (db : DB) (id : Int) : Option SemaineRow :=
  db.semaines.find? (fun s => s.id == id)

/-- `SELECT ... FROM batiments WHERE id = ?`. -/
def findBatiment (db : DB) (id : Int) : Option BatimentRow :=
  db.batiments.find? (fun b => b.id == id)

/-- `SELECT id FROM suivi_quotidien WHERE semaine_id = ?1 AND age = ?2`. -/
def findSuiviByKey (db : DB) (semaine_id age : Int) : Option SuiviRow :=
  db.suivi_quotidien.find? (fun r => r.semaine_id == semaine_id && r.age == age)

/-- `SELECT ... FROM suivi_quotidien WHERE id = ?`. -/
def findSuiviById (db : DB) (id : Int) : Option SuiviRow :=
  db.suivi_quotidien.find? (fun r => r.id == id)

/-- `SELECT COUNT(*) FROM soins WHERE id = ?1 > 0`. -/
def soinExists (db : DB) (id : Int) : Bool :=
  db.soins.any (fun s => s.id == id)

/-- `SELECT COUNT(*) FROM semaines WHERE id = ?1 > 0`. -/
def semaineExists (db : DB) (id : Int) : Bool :=
  db.semaines.any (fun s => s.id == id)

/-- `SELECT COUNT(*) FROM batiments WHERE id = ?1 > 0`. -/
def batimentExists (db : DB) (id : Int) : Bool :=
  db.batiments.any (fun b => b.id == id)

/-- `UPDATE bandes SET alimentation_contour = alimentation_contour - ?1
WHERE id = ?2` (affects every matching row; `id` is the primary key, so in
well-formed states at most one row matches). -/
def updateBandeContour (db : DB) (bande_id : Int) (diff : Rat) : DB :=
  { db with bandes := db.bandes.map (fun b =>
      if b.id == bande_id then { b with alimentation_contour := ratSub b.alimentation_contour diff } else b) }

/-! ## Errors

Structured counterparts of the strings/`AppError`s the source produces
(`error.rs`; the command file stringifies them).  Each constructor records
exactly the data interpolated into the source's message. -/

inductive AppError where
  /-- Command: the semaine of the upsert address does not exist. -/
  | semaineNotFound (semaine_id : Int)
  /-- Command: a `soins_id` value references no row of the `soins` catalog. -/
  | soinNotFound (soin_id : Int)
  /-- Command: unknown `field` name. -/
  | unknownField (field : String)
  /-- `rusqlite::Error::QueryReturnedNoRows` surfaced by `query_row`. -/
  | queryNoRows
  /-- `AppError::ValidationError` raised by a repository (field name kept). -/
  | validationError (field : String)
  /-- `AppError::NotFound { entity, id }`. -/
  | notFound (entity : String) (id : Int)
  /-- `AppError::Database` wrapping an SQLite constraint failure. -/
  | constraintViolation (constraint : String)
  deriving Repr, DecidableEq

/-! ## `SuiviQuotidienRepository` -/

/-- `CreateSuiviQuotidien` (the 8 columns the repository `INSERT` writes). -/
structure CreateSuiviQuotidien where
  semaine_id : Int
  age : Int
  deces_par_jour : Option Int
  alimentation_par_jour : Option Rat
  soins_id : Option Int
  soins_quantite : Option String
  analyses : Option String
  remarques : Option String
  deriving Repr, DecidableEq

/-- `UpdateSuiviQuotidien`. -/
structure UpdateSuiviQuotidien where
  id : Int
  semaine_id : Int
  age : Int
  deces_par_jour : Option Int
  alimentation_par_jour : Option Rat
  soins_id : Option Int
  soins_quantite : Option String
  analyses : Option String
  remarques : Option String
  deriving Repr, DecidableEq

/-- The `soins_id` foreign key (`FOREIGN KEY (soins_id) REFERENCES soins(id)`,
enforced because `PRAGMA foreign_keys = ON`) is violated by the written
value. -/
def danglingSoin (db : DB) : Option Int → Bool
  | some sid => !soinExists db sid
  | none => false

/-- `SuiviQuotidienRepository::create`: validates the semaine, then runs the
`INSERT`.  The insert enforces the schema constraints `CHECK (age > 0)`,
`UNIQUE(semaine_id, age)` and (with `PRAGMA foreign_keys = ON`) the
`soins_id` foreign key; a violated constraint surfaces as a database
error and nothing is written. -/
def suiviRepoCreate (db : DB) (c : CreateSuiviQuotidien) : DB × Except AppError SuiviRow :=
  if ¬ semaineExists db c.semaine_id then
    (db, .error (.validationError "semaine_id"))
  else if c.age ≤ 0 then
    (db, .error (.constraintViolation "age > 0"))
  else if db.suivi_quotidien.any (fun r => r.semaine_id == c.semaine_id && r.age == c.age) then
    (db, .error (.constraintViolation "UNIQUE(semaine_id, age)"))
  else if danglingSoin db c.soins_id then
    (db, .error (.constraintViolation "FOREIGN KEY soins_id"))
  else
    let row : SuiviRow :=
      { id := db.next_suivi_id, semaine_id := c.semaine_id, age := c.age,
        deces_par_jour := c.deces_par_jour, alimentation_par_jour := c.alimentation_par_jour,
        soins_id := c.soins_id, soins_quantite := c.soins_quantite,
        analyses := c.analyses, remarques := c.remarques }
    ({ db with suivi_quotidien := db.suivi_quotidien ++ [row],
                  next_suivi_id := db.next_suivi_id + 1 }, .ok row)

/-- The row written by `SuiviQuotidienRepository::update` for `u`. -/
def rowOfUpdate (u : UpdateSuiviQuotidien) : SuiviRow :=
  { id := u.id, semaine_id := u.semaine_id, age := u.age,
    deces_par_jour := u.deces_par_jour, alimentation_par_jour := u.alimentation_par_jour,
    soins_id := u.soins_id, soins_quantite := u.soins_quantite,
    analyses := u.analyses, remarques := u.remarques }

/-- `SuiviQuotidienRepository::update`: validates the semaine, runs the
`UPDATE ... WHERE id = ?`; zero affected rows gives `NotFound`, and a
schema-constraint violation on the written row surfaces as a database
error with nothing written. -/
def suiviRepoUpdate (db : DB) (u : UpdateSuiviQuotidien) : DB × Except AppError SuiviRow :=
  if ¬ semaineExists db u.semaine_id then
    (db, .error (.validationError "semaine_id"))
  else if ¬ db.suivi_quotidien.any (fun r => r.id == u.id) then
    (db, .error (.notFound "SuiviQuotidien" u.id))
  else if u.age ≤ 0 then
    (db, .error (.constraintViolation "age > 0"))
  else if db.suivi_quotidien.any (fun r => r.id != u.id && r.semaine_id == u.semaine_id && r.age == u.age) then
    (db, .error (.constraintViolation "UNIQUE(semaine_id, age)"))
  else if danglingSoin db u.soins_id then
    (db, .error (.constraintViolation "FOREIGN KEY soins_id"))
  else
    ({ db with suivi_quotidien := db.suivi_quotidien.map (fun r =>
         if r.id == u.id then rowOfUpdate u else r) }, .ok (rowOfUpdate u))

/-! ## The upsert command (`upsert_suivi_quotidien_field`)

The command opens no transaction: every `conn.execute` (in particular the
`UPDATE bandes` ledger statement) commits on its own, and the repository
call that writes the day row runs afterwards on a pooled connection.  The
state paired with an `.error` result is therefore the state left behind by
the statements that did execute. -/

/-- Branch of `upsert_suivi_quotidien_field` taken when a row already
exists at `(semaine_id, age)` (`existing_id = Some(id)`): re-read the row
by id (`repository.get_by_id`), patch the addressed field, adjust the
bande ledger when the field is `alimentation_par_jour`, then
`repository.update`. -/
def upsertExisting (db : DB) (bande_id existing_id : Int) (field value : String) :
    DB × Except AppError SuiviRow :=
  match findSuiviById db existing_id with
  | none => (db, .error (.notFound "SuiviQuotidien" existing_id))
  | some current =>
    let base : UpdateSuiviQuotidien :=
      { id := existing_id, semaine_id := current.semaine_id, age := current.age,
        deces_par_jour := current.deces_par_jour,
        alimentation_par_jour := current.alimentation_par_jour,
        soins_id := current.soins_id, soins_quantite := current.soins_quantite,
        analyses := current.analyses, remarques := current.remarques }
    match field with
    | "deces_par_jour" =>
        suiviRepoUpdate db { base with deces_par_jour := parseI32 value }
    | "alimentation_par_jour" =>
        let old_value := current.alimentation_par_jour.getD 0
        let new_value := (parseF64 value).getD 0
        let difference_sachets := ratSub new_value old_value
        let difference_kg := ratMul difference_sachets 50
        let db1 := if difference_kg ≠ 0 then updateBandeContour db bande_id difference_kg else db
        suiviRepoUpdate db1
          { base with alimentation_par_jour := if value = "" then none else some new_value }
    | "soins_id" =>
        if value = "" then
          suiviRepoUpdate db { base with soins_id := none }
        else
          match parseI64 value with
          | some soin_id =>
              if soinExists db soin_id then
                suiviRepoUpdate db { base with soins_id := some soin_id }
              else (db, .error (.soinNotFound soin_id))
          | none => suiviRepoUpdate db { base with soins_id := none }
    | "soins_quantite" =>
        suiviRepoUpdate db { base with soins_quantite := if value = "" then none else some value }
    | "analyses" =>
        suiviRepoUpdate db { base with analyses := if value = "" then none else some value }
    | "remarques" =>
        suiviRepoUpdate db { base with remarques := if value = "" then none else some value }
    | _ => (db, .error (.unknownField field))

/-- Branch of `upsert_suivi_quotidien_field` taken when no row exists at
`(semaine_id, age)`: start from the all-null `CreateSuiviQuotidien`
template, set the addressed field, adjust the bande ledger when the field
is `alimentation_par_jour` and the new value is positive, then
`repository.create`. -/
def upsertNew (db : DB) (bande_id semaine_id age : Int) (field value : String) :
    DB × Except AppError SuiviRow :=
  let base : CreateSuiviQuotidien :=
    { semaine_id := semaine_id, age := age, deces_par_jour := none,
      alimentation_par_jour := none, soins_id := none, soins_quantite := none,
      analyses := none, remarques := none }
  match field with
  | "deces_par_jour" =>
      suiviRepoCreate db { base with deces_par_jour := parseI32 value }
  | "alimentation_par_jour" =>
      let new_value := (parseF64 value).getD 0
      let db1 := if 0 < new_value then updateBandeContour db bande_id (ratMul new_value 50) else db
      suiviRepoCreate db1
        { base with alimentation_par_jour := if value = "" then none else some new_value }
  | "soins_id" =>
      if value = "" then
        suiviRepoCreate db { base with soins_id := none }
      else
        match parseI64 value with
        | some soin_id =>
            if soinExists db soin_id then
              suiviRepoCreate db { base with soins_id := some soin_id }
            else (db, .error (.soinNotFound soin_id))
        | none => suiviRepoCreate db { base with soins_id := none }
  | "soins_quantite" =>
      suiviRepoCreate db { base with soins_quantite := if value = "" then none else some value }
  | "analyses" =>
      suiviRepoCreate db { base with analyses := if value = "" then none else some value }
  | "remarques" =>
      suiviRepoCreate db { base with remarques := if value = "" then none else some value }
  | _ => (db, .error (.unknownField field))

/-- The Tauri command `upsert_suivi_quotidien_field(semaine_id, age, field,
value)`: check the semaine exists, resolve the owning bande through the
`batiments ⋈ semaines` join (`QueryReturnedNoRows` if the batiment is
missing), look the day row up by its natural key `(semaine_id, age)`, and
dispatch to the update or create branch. -/
def upsert_suivi_quotidien_field (db : DB) (semaine_id age : Int) (field value : String) :
    DB × Except AppError SuiviRow :=
  match findSemaine db semaine_id with
  | none => (db, .error (.semaineNotFound semaine_id))
  | some s =>
    match findBatiment db s.batiment_id with
    | none => (db, .error .queryNoRows)
    | some b =>
      match findSuiviByKey db semaine_id age with
      | some existingRow => upsertExisting db b.bande_id existingRow.id field value
      | none => upsertNew db b.bande_id semaine_id age field value

/-! ## `SemaineRepository` and the materializer
(`SemaineService::get_full_semaines_by_batiment`)

The `semaine_repository.rs` snapshot in the tree predates the rename of
the parent column (it still calls it `bande_id`); the schema
(`semaines(batiment_id, ...)`) and the service fix the intended shape, so
the repository is embedded over `batiment_id`.  `ORDER BY` clauses are
dropped: their only effect here is the enumeration order feeding a keyed
map or a keyed `find`. -/

/-- The in-memory `Semaine` model struct (`models/semaine.rs`). -/
structure Semaine where
  id : Option Int
  batiment_id : Int
  numero_semaine : Int
  poids : Option Rat
  deriving Repr, DecidableEq

/-- `CreateSemaine`. -/
structure CreateSemaine where
  batiment_id : Int
  numero_semaine : Int
  poids : Option Rat
  deriving Repr, DecidableEq

/-- `SemaineRepository::create`: validate the parent exists, then `INSERT`,
which enforces `CHECK (numero_semaine BETWEEN 1 AND 9)` and
`UNIQUE(batiment_id, numero_semaine)`. -/
def semaineRepoCreate (db : DB) (c : CreateSemaine) : DB × Except AppError Semaine :=
  if ¬ batimentExists db c.batiment_id then
    (db, .error (.validationError "batiment_id"))
  else if c.numero_semaine < 1 ∨ 9 < c.numero_semaine then
    (db, .error (.constraintViolation "numero_semaine BETWEEN 1 AND 9"))
  else if db.semaines.any (fun s => s.batiment_id == c.batiment_id && s.numero_semaine == c.numero_semaine) then
    (db, .error (.constraintViolation "UNIQUE(batiment_id, numero_semaine)"))
  else
    let row : SemaineRow :=
      { id := db.next_semaine_id, batiment_id := c.batiment_id,
        numero_semaine := c.numero_semaine, poids := c.poids }
    ({ db with semaines := db.semaines ++ [row], next_semaine_id := db.next_semaine_id + 1 },
     .ok { id := some row.id, batiment_id := c.batiment_id,
           numero_semaine := c.numero_semaine, poids := c.poids })

/-- `SemaineRepository::get_by_batiment`: the stored semaines of the
batiment as model structs. -/
def semaineRepoGetByBatiment (db : DB) (batiment_id : Int) : List Semaine :=
  (db.semaines.filter (fun s => s.batiment_id == batiment_id)).map (fun s =>
    { id := some s.id, batiment_id := s.batiment_id,
      numero_semaine := s.numero_semaine, poids := s.poids })

/-- `SuiviQuotidienWithDetails` as built by the service (the `soins`
catalog join supplies `soins_nom`). -/
structure SuiviQuotidienWithDetails where
  id : Option Int
  semaine_id : Int
  age : Int
  deces_par_jour : Option Int
  alimentation_par_jour : Option Rat
  soins_id : Option Int
  soins_nom : Option String
  soins_quantite : Option String
  analyses : Option String
  remarques : Option String
  deriving Repr, DecidableEq

/-- The detail view of a stored day row (`LEFT JOIN soins`). -/
def detailsOfRow (db : DB) (r : SuiviRow) : SuiviQuotidienWithDetails :=
  { id := some r.id, semaine_id := r.semaine_id, age := r.age,
    deces_par_jour := r.deces_par_jour, alimentation_par_jour := r.alimentation_par_jour,
    soins_id := r.soins_id,
    soins_nom := r.soins_id.bind (fun sid => ((db.soins.find? (fun s => s.id == sid)).map (fun s => s.nom))),
    soins_quantite := r.soins_quantite, analyses := r.analyses, remarques := r.remarques }

/-- `SuiviQuotidienRepository::get_by_semaine`. -/
def suiviRepoGetBySemaine (db : DB) (semaine_id : Int) : List SuiviQuotidienWithDetails :=
  (db.suivi_quotidien.filter (fun r => r.semaine_id == semaine_id)).map (detailsOfRow db)

/-- The virtual (never persisted) day emitted for an empty slot: every
optional field null. -/
def virtualDay (semaine_id age : Int) : SuiviQuotidienWithDetails :=
  { id := none, semaine_id := semaine_id, age := age, deces_par_jour := none,
    alimentation_par_jour := none, soins_id := none, soins_nom := none,
    soins_quantite := none, analyses := none, remarques := none }

/-- `SemaineWithDetails` (`semaine_service.rs`). -/
structure SemaineWithDetails where
  id : Option Int
  batiment_id : Int
  numero_semaine : Int
  poids : Option Rat
  suivi_quotidien : List SuiviQuotidienWithDetails
  deriving Repr, DecidableEq

/-- The 7 day slots of a semaine: ages `(numero-1)*7 + 1 .. (numero-1)*7 + 7`,
each the persisted day if present among the semaine's rows, else the
virtual day. -/
def buildDays (db : DB) (semaine_id numero_semaine : Int) : List SuiviQuotidienWithDetails :=
  let existing := suiviRepoGetBySemaine db semaine_id
  let start_age := (numero_semaine - 1) * 7 + 1
  (List.range 7).map (fun day =>
    let age := start_age + Int.ofNat day
    match existing.find? (fun s => s.age == age) with
    | some s => s
    | none => virtualDay semaine_id age)

/-- One semaine of the grid with its 7 day slots (`if let Some(semaine_id)
= semaine.id` in the source: a model struct with no id contributes no
day slots). -/
def semaineDetails (db : DB) (s : Semaine) : SemaineWithDetails :=
  { id := s.id, batiment_id := s.batiment_id, numero_semaine := s.numero_semaine,
    poids := s.poids,
    suivi_quotidien := match s.id with
      | some sid => buildDays db sid s.numero_semaine
      | none => [] }

/-- The `semaines_map` of the service: a `HashMap<i32, Semaine>` keyed by
`numero_semaine`, modelled as an association list where the newest
insertion shadows older ones. -/
abbrev SemMap := List (Int × Semaine)

/-- `semaines_map.get(&numero)`. -/
def semMapLookup (m : SemMap) (numero : Int) : Option Semaine :=
  (m.find? (fun e => e.1 == numero)).map (fun e => e.2)

/-- `semaines_map.insert(numero, s)`. -/
def semMapInsert (m : SemMap) (numero : Int) (s : Semaine) : SemMap :=
  (numero, s) :: m

/-- The `for numero_semaine in 1..=8` loop of
`get_full_semaines_by_batiment`, generalized over the remaining numbers.
A failed `SemaineRepository::create` aborts the loop with the error; each
successful create has already committed (autocommit), so the state at the
error is kept. -/
def fullSemainesLoop (batiment_id : Int) :
    List Int → DB → SemMap → List SemaineWithDetails →
    DB × Except AppError (List SemaineWithDetails)
  | [], db, _, acc => (db, .ok acc)
  | numero :: rest, db, m, acc =>
    match semMapLookup m numero with
    | some existing =>
        fullSemainesLoop batiment_id rest db m (acc ++ [semaineDetails db existing])
    | none =>
        match semaineRepoCreate db
            { batiment_id := batiment_id, numero_semaine := numero, poids := none } with
        | (db1, .ok new_semaine) =>
            fullSemainesLoop batiment_id rest db1 (semMapInsert m numero new_semaine)
              (acc ++ [semaineDetails db1 new_semaine])
        | (db1, .error e) => (db1, .error e)

/-- `SemaineService::get_full_semaines_by_batiment`: load the existing
semaines of the batiment into the map, then materialize numbers 1..8,
creating the missing semaines and emitting 7 (persisted-or-virtual) day
slots per semaine. -/
def get_full_semaines_by_batiment (db : DB) (batiment_id : Int) :
    DB × Except AppError (List SemaineWithDetails) :=
  let existing := semaineRepoGetByBatiment db batiment_id
  let m : SemMap := existing.foldl (fun m s => semMapInsert m s.numero_semaine s) []
  fullSemainesLoop batiment_id [1, 2, 3, 4, 5, 6, 7, 8] db m []

/-! ## `BatimentRepository::delete` (cascade deletion)

The one operation with an explicit transaction: all four `DELETE` steps
run on the transaction; an error before `commit` rolls everything back,
so error results return the original state. -/

/-- `BatimentRepository::delete(id)`: inside one transaction, delete the
batiment's suivi_quotidien rows (through its semaines), its semaines, its
`batiment_maladies` links, and finally the batiment row itself; zero rows
affected by the final delete raises `NotFound` and rolls the whole
transaction back. -/
def batimentRepoDelete (db : DB) (id : Int) : DB × Except AppError Unit :=
  let semaine_ids := (db.semaines.filter (fun s => s.batiment_id == id)).map (fun s => s.id)
  let db1 :=
    if semaine_ids.isEmpty then db
    else { db with suivi_quotidien :=
            db.suivi_quotidien.filter (fun r => ¬ semaine_ids.contains r.semaine_id) }
  let db2 := { db1 with semaines := db1.semaines.filter (fun s => s.batiment_id != id) }
  let db3 := { db2 with batiment_maladies := db2.batiment_maladies.filter (fun e => e.1 != id) }
  let rows_affected : Nat := db3.batiments.countP (fun b => b.id == id)
  if rows_affected = 0 then
    (db, .error (.notFound "Batiment" id))
  else
    ({ db3 with batiments := db3.batiments.filter (fun b => b.id != id) }, .ok ())

/-! ## Derived notions used in theorem statements -/

/-- The bande owning the semaine, through the `batiments ⋈ semaines` join
of the upsert command. -/
def resolveBande (db : DB) (semaine_id : Int) : Option Int :=
  (findSemaine db semaine_id).bind (fun s =>
    (findBatiment db s.batiment_id).map (fun b => b.bande_id))

/-- The currently stored consumption value at an address, with a missing
row or an unset field read as `0`. -/
def storedAlim (db : DB) (semaine_id age : Int) : Rat :=
  match findSuiviByKey db semaine_id age with
  | some r => r.alimentation_par_jour.getD 0
  | none => 0

/-- Total `alimentation_contour` carried by the rows of one bande id
(one summand per row; a single row in states satisfying `DBInv`). -/
def contourOf (db : DB) (bande_id : Int) : Rat :=
  ((db.bandes.filter (fun b => b.id == bande_id)).map (fun b => b.alimentation_contour)).sum

/-- Schema facts holding in every store reachable through SQLite: primary
keys are unique, `UNIQUE(semaine_id, age)` and `CHECK (age > 0)` hold,
stored `soins_id` values resolve (`PRAGMA foreign_keys = ON`), the
AUTOINCREMENT counter lies above every row id, and every batiment's
`bande_id` resolves. -/
structure DBInv (db : DB) : Prop where
  suivi_ids : db.suivi_quotidien.Pairwise (fun a b => a.id ≠ b.id)
  suivi_nat_keys : db.suivi_quotidien.Pairwise (fun a b => (a.semaine_id, a.age) ≠ (b.semaine_id, b.age))
  suivi_id_lt : ∀ r ∈ db.suivi_quotidien, r.id < db.next_suivi_id
  suivi_age_pos : ∀ r ∈ db.suivi_quotidien, 0 < r.age
  suivi_soins_fk : ∀ r ∈ db.suivi_quotidien, danglingSoin db r.soins_id = false
  bande_ids : db.bandes.Pairwise (fun a b => a.id ≠ b.id)
  batiment_bande_fk : ∀ bt ∈ db.batiments, db.bandes.any (fun bd => bd.id == bt.bande_id) = true

/-! ## Concrete stores used by witnesses and counterexamples -/

/-- One bande (ledger `1000`), one batiment, one semaine, no day rows. -/
def dbEmptyGrid : DB :=
  { bandes := [{ id := 1, alimentation_contour := 1000 }],
    batiments := [{ id := 1, bande_id := 1 }],
    semaines := [{ id := 1, batiment_id := 1, numero_semaine := 1, poids := none }],
    suivi_quotidien := [], soins := [], batiment_maladies := [],
    next_suivi_id := 1, next_semaine_id := 2 }

/-- The single day row of `dbOneRow`. -/
def rowOne : SuiviRow :=
  { id := 1, semaine_id := 1, age := 1, deces_par_jour := some 5,
    alimentation_par_jour := some 2, soins_id := none, soins_quantite := none,
    analyses := none, remarques := none }

/-- Like `dbEmptyGrid` but with one stored day row at `(1, 1)`
(`deces_par_jour = 5`, `alimentation_par_jour = 2`). -/
def dbOneRow : DB :=
  { bandes := [{ id := 1, alimentation_contour := 900 }],
    batiments := [{ id := 1, bande_id := 1 }],
    semaines := [{ id := 1, batiment_id := 1, numero_semaine := 1, poids := none }],
    suivi_quotidien := [rowOne], soins := [], batiment_maladies := [],
    next_suivi_id := 2, next_semaine_id := 2 }

/-- A batiment-and-descendants store used for deletion claims: batiment 1
with a semaine and a day row, plus an unrelated batiment 2. -/
def dbCascade : DB :=
  { bandes := [{ id := 1, alimentation_contour := 900 }, { id := 2, alimentation_contour := 70 }],
    batiments := [{ id := 1, bande_id := 1 }, { id := 2, bande_id := 2 }],
    semaines := [{ id := 1, batiment_id := 1, numero_semaine := 1, poids := none },
                 { id := 2, batiment_id := 2, numero_semaine := 1, poids := none }],
    suivi_quotidien := [rowOne], soins := [],
    batiment_maladies := [(1, 4), (2, 4)],
    next_suivi_id := 2, next_semaine_id := 3 }

/-- The row inserted by a successful `suiviRepoCreate`. -/
def rowOfCreate (db : DB) (c : CreateSuiviQuotidien) : SuiviRow :=
  { id := db.next_suivi_id, semaine_id := c.semaine_id, age := c.age,
    deces_par_jour := c.deces_par_jour, alimentation_par_jour := c.alimentation_par_jour,
    soins_id := c.soins_id, soins_quantite := c.soins_quantite,
    analyses := c.analyses, remarques := c.remarques }

/-- The `UpdateSuiviQuotidien` template of the update branch before the
addressed field is patched (`update_suivi` in the source). -/
def updateBaseOf (existing_id : Int) (current : SuiviRow) : UpdateSuiviQuotidien :=
  { id := existing_id, semaine_id := current.semaine_id, age := current.age,
    deces_par_jour := current.deces_par_jour,
    alimentation_par_jour := current.alimentation_par_jour,
    soins_id := current.soins_id, soins_quantite := current.soins_quantite,
    analyses := current.analyses, remarques := current.remarques }

/-- The all-null `CreateSuiviQuotidien` template of the create branch
(`create_suivi` in the source). -/
def createBaseOf (semaine_id age : Int) : CreateSuiviQuotidien :=
  { semaine_id := semaine_id, age := age, deces_par_jour := none,
    alimentation_par_jour := none, soins_id := none, soins_quantite := none,
    analyses := none, remarques := none }

/-- A sequence of consumption-field upserts, applied left to right
(each op is `(semaine_id, age, value)`). -/
def applyAlimOps (db : DB) : List (Int × Int × String) → DB
  | [] => db
  | (sid, ag, v) :: rest =>
      applyAlimOps (upsert_suivi_quotidien_field db sid ag "alimentation_par_jour" v).1 rest

/-- The signed ledger delta the specification assigns to one consumption
upsert against cycle `B`: `(new - old) * 50` when the op resolves to
bande `B`, `0` otherwise. -/
def opDelta (db : DB) (B sid ag : Int) (v : String) : Rat :=
  match resolveBande db sid with
  | some bid => if bid = B then (((parseF64 v).getD 0) - storedAlim db sid ag) * 50 else 0
  | none => 0

/-- `Σ (new_i - old_i) * 50` over a sequence of consumption upserts, each
`old_i` read from the store as it stands when op `i` runs. -/
def sumDeltas (db : DB) (B : Int) : List (Int × Int × String) → Rat
  | [] => 0
  | (sid, ag, v) :: rest =>
      opDelta db B sid ag v +
        sumDeltas (upsert_suivi_quotidien_field db sid ag "alimentation_par_jour" v).1 B rest

/-! # Theorems

First the general lemma layer (arithmetic, list lookups, store
operations), then one theorem (with witness) or
counterexample-plus-amended-theorem group per specification claim. -/

theorem ratSub_eq (a b : Rat) : ratSub a b = a - b :=
  (Rat.sub_def' a b).symm

theorem ratMul_eq (a b : Rat) : ratMul a b = a * b := by
  rw [ratMul, Rat.mul_def, Rat.normalize_eq_mkRat]

theorem ratNeg_eq (a : Rat) : ratNeg a = -a := by
  rw [ratNeg, ← Rat.neg_mkRat, Rat.mkRat_self]

/-! ## Lookup lemmas -/

theorem find?_eq_some_of_unique {α : Type _} {p : α → Bool} {l : List α} {x : α}
    (hx : x ∈ l) (hpx : p x = true)
    (hu : ∀ y ∈ l, p y = true → y = x) : l.find? p = some x := by
  induction l with
  | nil => cases hx
  | cons a t ih =>
    by_cases hpa : p a = true
    · have ha : a = x := hu a (List.mem_cons_self a t) hpa
      rw [List.find?_cons_of_pos _ hpa, ha]
    · rw [List.find?_cons_of_neg _ (by simpa using hpa)]
      rcases List.mem_cons.mp hx with rfl | hxt
      · exact absurd hpx hpa
      · exact ih hxt (fun y hy hpy => hu y (List.mem_cons_of_mem a hy) hpy)

theorem eq_of_pairwise_key {α κ : Type _} (key : α → κ) {l : List α}
    (h : l.Pairwise (fun a b => key a ≠ key b)) {x y : α}
    (hx : x ∈ l) (hy : y ∈ l) (hk : key x = key y) : x = y := by
  induction l with
  | nil => cases hx
  | cons a t ih =>
    rcases List.pairwise_cons.mp h with ⟨ha, ht⟩
    rcases List.mem_cons.mp hx with rfl | hxt
    · rcases List.mem_cons.mp hy with rfl | hyt
      · rfl
      · exact absurd hk (ha y hyt)
    · rcases List.mem_cons.mp hy with rfl | hyt
      · exact absurd hk.symm (ha x hxt)
      · exact ih ht hxt hyt

/-- With unique row ids, the `get_by_id` re-read of a member row returns
that row. -/
theorem findSuiviById_self {db : DB}
    (hids : db.suivi_quotidien.Pairwise (fun a b => a.id ≠ b.id))
    {x : SuiviRow} (hx : x ∈ db.suivi_quotidien) : findSuiviById db x.id = some x :=
  find?_eq_some_of_unique hx (by simp)
    (fun y hy hpy => eq_of_pairwise_key (fun r => r.id) hids hy hx (by simpa using hpy))

theorem findSuiviByKey_props {db : DB} {sid ag : Int} {r : SuiviRow}
    (h : findSuiviByKey db sid ag = some r) :
    r ∈ db.suivi_quotidien ∧ r.semaine_id = sid ∧ r.age = ag := by
  refine ⟨List.mem_of_find?_eq_some h, ?_, ?_⟩ <;>
    · have hp := List.find?_some h
      simp at hp
      tauto

/-! ## Store operation lemmas -/

/-- Explicit form of `BatimentRepository::delete`: either the batiment is
absent and the transaction rolls back, or all four cascade steps apply. -/
theorem batimentRepoDelete_eq (db : DB) (id : Int) :
    batimentRepoDelete db id =
      (if db.batiments.countP (fun b => b.id == id) = 0 then
        (db, .error (.notFound "Batiment" id))
       else
        ({ db with
            suivi_quotidien := db.suivi_quotidien.filter (fun r =>
              ¬ ((db.semaines.filter (fun s => s.batiment_id == id)).map (fun s => s.id)).contains r.semaine_id),
            semaines := db.semaines.filter (fun s => s.batiment_id != id),
            batiment_maladies := db.batiment_maladies.filter (fun e => e.1 != id),
            batiments := db.batiments.filter (fun b => b.id != id) }, .ok ())) := by
  unfold batimentRepoDelete
  by_cases hemp : ((db.semaines.filter (fun s => s.batiment_id == id)).map (fun s => s.id)).isEmpty
  · have hnil := List.isEmpty_iff.mp hemp
    have hfix : db.suivi_quotidien.filter (fun r =>
        ¬ ((db.semaines.filter (fun s => s.batiment_id == id)).map (fun s => s.id)).contains r.semaine_id)
        = db.suivi_quotidien := by
      rw [hnil]
      simp
    simp only [hemp, if_true, hfix]
  · simp only [hemp, Bool.false_eq_true, if_false]

theorem suiviRepoCreate_error_state (db : DB) (c : CreateSuiviQuotidien) (e : AppError)
    (h : (suiviRepoCreate db c).2 = .error e) : (suiviRepoCreate db c).1 = db := by
  rcases hE : suiviRepoCreate db c with ⟨db1, r⟩
  rw [hE] at h
  unfold suiviRepoCreate at hE
  split at hE
  · cases hE; rfl
  · split at hE
    · cases hE; rfl
    · split at hE
      · cases hE; rfl
      · split at hE
        · cases hE; rfl
        · cases hE; simp at h

theorem suiviRepoCreate_of_checks (db : DB) (c : CreateSuiviQuotidien)
    (h1 : semaineExists db c.semaine_id = true)
    (h2 : 0 < c.age)
    (h3 : db.suivi_quotidien.any (fun r => r.semaine_id == c.semaine_id && r.age == c.age) = false)
    (h4 : danglingSoin db c.soins_id = false) :
    suiviRepoCreate db c =
      ({ db with suivi_quotidien := db.suivi_quotidien ++ [rowOfCreate db c],
                    next_suivi_id := db.next_suivi_id + 1 }, .ok (rowOfCreate db c)) := by
  unfold suiviRepoCreate
  rw [if_neg (by simp [h1]), if_neg (by omega), if_neg (by simp [h3]), if_neg (by simp [h4])]
  rfl

theorem suiviRepoUpdate_error_state (db : DB) (u : UpdateSuiviQuotidien) (e : AppError)
    (h : (suiviRepoUpdate db u).2 = .error e) : (suiviRepoUpdate db u).1 = db := by
  rcases hE : suiviRepoUpdate db u with ⟨db1, r⟩
  rw [hE] at h
  unfold suiviRepoUpdate at hE
  split at hE
  · cases hE; rfl
  · split at hE
    · cases hE; rfl
    · split at hE
      · cases hE; rfl
      · split at hE
        · cases hE; rfl
        · split at hE
          · cases hE; rfl
          · cases hE; simp at h

theorem suiviRepoUpdate_of_checks (db : DB) (u : UpdateSuiviQuotidien)
    (h1 : semaineExists db u.semaine_id = true)
    (h2 : db.suivi_quotidien.any (fun r => r.id == u.id) = true)
    (h3 : 0 < u.age)
    (h4 : db.suivi_quotidien.any (fun r => r.id != u.id && r.semaine_id == u.semaine_id && r.age == u.age) = false)
    (h5 : danglingSoin db u.soins_id = false) :
    suiviRepoUpdate db u =
      ({ db with suivi_quotidien := db.suivi_quotidien.map (fun r =>
           if r.id == u.id then rowOfUpdate u else r) }, .ok (rowOfUpdate u)) := by
  unfold suiviRepoUpdate
  rw [if_neg (by simp [h1]), if_neg (by simp [h2]), if_neg (by omega), if_neg (by simp [h4]),
    if_neg (by simp [h5])]

theorem suiviRepoUpdate_pair_error (db0 : DB) (u : UpdateSuiviQuotidien) (db1 : DB)
    (r : Except AppError SuiviRow) (e : AppError)
    (hE : suiviRepoUpdate db0 u = (db1, r)) (h : r = .error e) : db1 = db0 := by
  have h2 : (suiviRepoUpdate db0 u).2 = .error e := by rw [hE]; exact h
  have h1 := suiviRepoUpdate_error_state _ _ _ h2
  rw [hE] at h1
  exact h1

theorem suiviRepoCreate_pair_error (db0 : DB) (c : CreateSuiviQuotidien) (db1 : DB)
    (r : Except AppError SuiviRow) (e : AppError)
    (hE : suiviRepoCreate db0 c = (db1, r)) (h : r = .error e) : db1 = db0 := by
  have h2 : (suiviRepoCreate db0 c).2 = .error e := by rw [hE]; exact h
  have h1 := suiviRepoCreate_error_state _ _ _ h2
  rw [hE] at h1
  exact h1

/-! ## Field-dispatch equations for the upsert command

The two command branches match on the `field` string; with the field
fixed these equations (all definitional) expose the branch bodies. -/

theorem upsertExisting_deces (db : DB) (bid eid : Int) (value : String) :
    upsertExisting db bid eid "deces_par_jour" value =
      match findSuiviById db eid with
      | none => (db, .error (.notFound "SuiviQuotidien" eid))
      | some current =>
          suiviRepoUpdate db { updateBaseOf eid current with deces_par_jour := parseI32 value } := rfl

theorem upsertExisting_alim (db : DB) (bid eid : Int) (value : String) :
    upsertExisting db bid eid "alimentation_par_jour" value =
      match findSuiviById db eid with
      | none => (db, .error (.notFound "SuiviQuotidien" eid))
      | some current =>
          let new_value := (parseF64 value).getD 0
          let difference_kg := ratMul (ratSub new_value (current.alimentation_par_jour.getD 0)) 50
          let db1 := if difference_kg ≠ 0 then updateBandeContour db bid difference_kg else db
          suiviRepoUpdate db1
            { updateBaseOf eid current with
                alimentation_par_jour := if value = "" then none else some new_value } := rfl

theorem upsertExisting_soins (db : DB) (bid eid : Int) (value : String) :
    upsertExisting db bid eid "soins_id" value =
      match findSuiviById db eid with
      | none => (db, .error (.notFound "SuiviQuotidien" eid))
      | some current =>
          if value = "" then
            suiviRepoUpdate db { updateBaseOf eid current with soins_id := none }
          else
            match parseI64 value with
            | some soin_id =>
                if soinExists db soin_id then
                  suiviRepoUpdate db { updateBaseOf eid current with soins_id := some soin_id }
                else (db, .error (.soinNotFound soin_id))
            | none => suiviRepoUpdate db { updateBaseOf eid current with soins_id := none } := rfl

theorem upsertExisting_quantite (db : DB) (bid eid : Int) (value : String) :
    upsertExisting db bid eid "soins_quantite" value =
      match findSuiviById db eid with
      | none => (db, .error (.notFound "SuiviQuotidien" eid))
      | some current =>
          suiviRepoUpdate db { updateBaseOf eid current with
            soins_quantite := if value = "" then none else some value } := rfl

theorem upsertExisting_analyses (db : DB) (bid eid : Int) (value : String) :
    upsertExisting db bid eid "analyses" value =
      match findSuiviById db eid with
      | none => (db, .error (.notFound "SuiviQuotidien" eid))
      | some current =>
          suiviRepoUpdate db { updateBaseOf eid current with
            analyses := if value = "" then none else some value } := rfl

theorem upsertExisting_remarques (db : DB) (bid eid : Int) (value : String) :
    upsertExisting db bid eid "remarques" value =
      match findSuiviById db eid with
      | none => (db, .error (.notFound "SuiviQuotidien" eid))
      | some current =>
          suiviRepoUpdate db { updateBaseOf eid current with
            remarques := if value = "" then none else some value } := rfl

theorem upsertExisting_unknown (db : DB) (bid eid : Int) (field value : String)
    (h1 : field ≠ "deces_par_jour") (h2 : field ≠ "alimentation_par_jour")
    (h3 : field ≠ "soins_id") (h4 : field ≠ "soins_quantite")
    (h5 : field ≠ "analyses") (h6 : field ≠ "remarques") :
    upsertExisting db bid eid field value =
      match findSuiviById db eid with
      | none => (db, .error (.notFound "SuiviQuotidien" eid))
      | some _ => (db, .error (.unknownField field)) := by
  unfold upsertExisting
  cases findSuiviById db eid with
  | none => rfl
  | some current => split <;> simp_all

theorem upsertNew_deces (db : DB) (bid sid ag : Int) (value : String) :
    upsertNew db bid sid ag "deces_par_jour" value =
      suiviRepoCreate db { createBaseOf sid ag with deces_par_jour := parseI32 value } := rfl

theorem upsertNew_alim (db : DB) (bid sid ag : Int) (value : String) :
    upsertNew db bid sid ag "alimentation_par_jour" value =
      (let new_value := (parseF64 value).getD 0
       let db1 := if 0 < new_value then updateBandeContour db bid (ratMul new_value 50) else db
       suiviRepoCreate db1 { createBaseOf sid ag with
         alimentation_par_jour := if value = "" then none else some new_value }) := rfl

theorem upsertNew_soins (db : DB) (bid sid ag : Int) (value : String) :
    upsertNew db bid sid ag "soins_id" value =
      (if value = "" then
        suiviRepoCreate db { createBaseOf sid ag with soins_id := none }
       else
        match parseI64 value with
        | some soin_id =>
            if soinExists db soin_id then
              suiviRepoCreate db { createBaseOf sid ag with soins_id := some soin_id }
            else (db, .error (.soinNotFound soin_id))
        | none => suiviRepoCreate db { createBaseOf sid ag with soins_id := none }) := rfl

theorem upsertNew_quantite (db : DB) (bid sid ag : Int) (value : String) :
    upsertNew db bid sid ag "soins_quantite" value =
      suiviRepoCreate db { createBaseOf sid ag with
        soins_quantite := if value = "" then none else some value } := rfl

theorem upsertNew_analyses (db : DB) (bid sid ag : Int) (value : String) :
    upsertNew db bid sid ag "analyses" value =
      suiviRepoCreate db { createBaseOf sid ag with
        analyses := if value = "" then none else some value } := rfl

theorem upsertNew_remarques (db : DB) (bid sid ag : Int) (value : String) :
    upsertNew db bid sid ag "remarques" value =
      suiviRepoCreate db { createBaseOf sid ag with
        remarques := if value = "" then none else some value } := rfl

theorem upsertNew_unknown (db : DB) (bid sid ag : Int) (field value : String)
    (h1 : field ≠ "deces_par_jour") (h2 : field ≠ "alimentation_par_jour")
    (h3 : field ≠ "soins_id") (h4 : field ≠ "soins_quantite")
    (h5 : field ≠ "analyses") (h6 : field ≠ "remarques") :
    upsertNew db bid sid ag field value = (db, .error (.unknownField field)) := by
  unfold upsertNew
  split <;> simp_all

/-- The top-level dispatch of the command, once the semaine and batiment
are resolved. -/
theorem upsert_dispatch (db : DB) (semaine_id age : Int) (field value : String)
    {s : SemaineRow} {b : BatimentRow}
    (hsem : findSemaine db semaine_id = some s)
    (hbat : findBatiment db s.batiment_id = some b) :
    upsert_suivi_quotidien_field db semaine_id age field value =
      match findSuiviByKey db semaine_id age with
      | some existingRow => upsertExisting db b.bande_id existingRow.id field value
      | none => upsertNew db b.bande_id semaine_id age field value := by
  unfold upsert_suivi_quotidien_field
  simp only [hsem, hbat]

/-! ## Error-frame lemmas for the upsert command -/

theorem upsertExisting_error_frame (db : DB) (bid eid : Int) (field value : String) (e : AppError)
    (h : (upsertExisting db bid eid field value).2 = .error e) :
    (upsertExisting db bid eid field value).1.suivi_quotidien = db.suivi_quotidien ∧
    (field ≠ "alimentation_par_jour" → (upsertExisting db bid eid field value).1 = db) := by
  rcases hE : upsertExisting db bid eid field value with ⟨db1, r⟩
  rw [hE] at h
  simp only [hE]
  unfold upsertExisting at hE
  cases hcur : findSuiviById db eid with
  | none =>
    simp only [hcur] at hE
    cases hE
    exact ⟨rfl, fun _ => rfl⟩
  | some current =>
    simp only [hcur] at hE
    split at hE
    · have hdb := suiviRepoUpdate_pair_error _ _ _ _ _ hE h
      exact ⟨by rw [hdb], fun _ => hdb⟩
    · have hdb := suiviRepoUpdate_pair_error _ _ _ _ _ hE h
      refine ⟨?_, fun hne => absurd rfl hne⟩
      rw [hdb]
      split
      · rfl
      · rfl
    · split at hE
      · have hdb := suiviRepoUpdate_pair_error _ _ _ _ _ hE h
        exact ⟨by rw [hdb], fun _ => hdb⟩
      · split at hE
        · split at hE
          · have hdb := suiviRepoUpdate_pair_error _ _ _ _ _ hE h
            exact ⟨by rw [hdb], fun _ => hdb⟩
          · cases hE
            exact ⟨rfl, fun _ => rfl⟩
        · have hdb := suiviRepoUpdate_pair_error _ _ _ _ _ hE h
          exact ⟨by rw [hdb], fun _ => hdb⟩
    · have hdb := suiviRepoUpdate_pair_error _ _ _ _ _ hE h
      exact ⟨by rw [hdb], fun _ => hdb⟩
    · have hdb := suiviRepoUpdate_pair_error _ _ _ _ _ hE h
      exact ⟨by rw [hdb], fun _ => hdb⟩
    · have hdb := suiviRepoUpdate_pair_error _ _ _ _ _ hE h
      exact ⟨by rw [hdb], fun _ => hdb⟩
    · cases hE
      exact ⟨rfl, fun _ => rfl⟩

theorem upsertNew_error_frame (db : DB) (bid sid ag : Int) (field value : String) (e : AppError)
    (h : (upsertNew db bid sid ag field value).2 = .error e) :
    (upsertNew db bid sid ag field value).1.suivi_quotidien = db.suivi_quotidien ∧
    (field ≠ "alimentation_par_jour" → (upsertNew db bid sid ag field value).1 = db) := by
  rcases hE : upsertNew db bid sid ag field value with ⟨db1, r⟩
  rw [hE] at h
  simp only [hE]
  unfold upsertNew at hE
  split at hE
  · have hdb := suiviRepoCreate_pair_error _ _ _ _ _ hE h
    exact ⟨by rw [hdb], fun _ => hdb⟩
  · have hdb := suiviRepoCreate_pair_error _ _ _ _ _ hE h
    refine ⟨?_, fun hne => absurd rfl hne⟩
    rw [hdb]
    split
    · rfl
    · rfl
  · split at hE
    · have hdb := suiviRepoCreate_pair_error _ _ _ _ _ hE h
      exact ⟨by rw [hdb], fun _ => hdb⟩
    · split at hE
      · split at hE
        · have hdb := suiviRepoCreate_pair_error _ _ _ _ _ hE h
          exact ⟨by rw [hdb], fun _ => hdb⟩
        · cases hE
          exact ⟨rfl, fun _ => rfl⟩
      · have hdb := suiviRepoCreate_pair_error _ _ _ _ _ hE h
        exact ⟨by rw [hdb], fun _ => hdb⟩
  · have hdb := suiviRepoCreate_pair_error _ _ _ _ _ hE h
    exact ⟨by rw [hdb], fun _ => hdb⟩
  · have hdb := suiviRepoCreate_pair_error _ _ _ _ _ hE h
    exact ⟨by rw [hdb], fun _ => hdb⟩
  · have hdb := suiviRepoCreate_pair_error _ _ _ _ _ hE h
    exact ⟨by rw [hdb], fun _ => hdb⟩
  · cases hE
    exact ⟨rfl, fun _ => rfl⟩

/-! ## Claim C9 — failed cascade deletion rolls back completely -/

/-- C9: `BatimentRepository::delete` on an id with no batiment row fails
with `NotFound("Batiment", id)` at the final step, and — because every
step ran inside the one uncommitted transaction — the resulting store is
exactly the original: no descendant suivi_quotidien, semaines or
batiment_maladies rows are actually removed. -/
theorem delete_missing_batiment_rollback (db : DB) (id : Int)
    (h : batimentExists db id = false) :
    batimentRepoDelete db id = (db, .error (.notFound "Batiment" id)) := by
  rw [batimentRepoDelete_eq, if_pos]
  rw [List.countP_eq_zero]
  intro b hb
  simpa using (List.any_eq_false.mp h) b hb

/-- Witness for C9 at a concrete store. -/
theorem delete_missing_batiment_rollback_w :
    batimentExists dbCascade 7 = false ∧
    batimentRepoDelete dbCascade 7 = (dbCascade, .error (.notFound "Batiment" 7)) :=
  ⟨by decide, delete_missing_batiment_rollback dbCascade 7 (by decide)⟩

/-! ## Claim C10 — successful cascade deletion leaves the ledger alone -/

/-- C10: `BatimentRepository::delete` never touches the `bandes` table —
in particular every `alimentation_contour` is left unchanged, with no
per-row ledger adjustment — and a successful run removes exactly the day
rows of the batiment's semaines. -/
theorem delete_bandes_frame (db : DB) (id : Int) :
    ((batimentRepoDelete db id).1).bandes = db.bandes ∧
    ((batimentRepoDelete db id).2 = .ok () →
      ((batimentRepoDelete db id).1).suivi_quotidien =
        db.suivi_quotidien.filter (fun r =>
          ¬ ((db.semaines.filter (fun s => s.batiment_id == id)).map (fun s => s.id)).contains r.semaine_id)) := by
  rw [batimentRepoDelete_eq]
  by_cases hc : db.batiments.countP (fun b => b.id == id) = 0
  · simp [hc]
  · simp [hc]

/-- Witness for C10: deleting batiment 1 of `dbCascade` succeeds, removes
its day row, and leaves both bandes (and their ledgers) unchanged. -/
theorem delete_bandes_frame_w :
    (batimentRepoDelete dbCascade 1).2 = .ok () ∧
    ((batimentRepoDelete dbCascade 1).1).bandes = dbCascade.bandes ∧
    ((batimentRepoDelete dbCascade 1).1).suivi_quotidien =
      dbCascade.suivi_quotidien.filter (fun r =>
        ¬ ((dbCascade.semaines.filter (fun s => s.batiment_id == (1 : Int))).map (fun s => s.id)).contains r.semaine_id) :=
  ⟨by rfl, (delete_bandes_frame dbCascade 1).1, (delete_bandes_frame dbCascade 1).2 (by rfl)⟩

/-! ## Claim C3 — the upsert is not atomic -/

/-- C3 counterexample: with no transaction around the two halves, an
upsert of consumption value `2` at the (invalid, never-persisted) age `0`
first commits the ledger update and then fails the day-row insert on the
`CHECK (age > 0)` constraint: the call errors, no day row exists, yet the
bande ledger has dropped from `1000` to `900` — the failed upsert did not
leave prior state intact. -/
theorem upsert_not_atomic_cx :
    (upsert_suivi_quotidien_field dbEmptyGrid 1 0 "alimentation_par_jour" "2").2 =
      .error (.constraintViolation "age > 0") ∧
    ((upsert_suivi_quotidien_field dbEmptyGrid 1 0 "alimentation_par_jour" "2").1).suivi_quotidien
      = dbEmptyGrid.suivi_quotidien ∧
    ((upsert_suivi_quotidien_field dbEmptyGrid 1 0 "alimentation_par_jour" "2").1).bandes
      ≠ dbEmptyGrid.bandes ∧
    ((upsert_suivi_quotidien_field dbEmptyGrid 1 0 "alimentation_par_jour" "2").1).bandes
      = [{ id := 1, alimentation_contour := 900 }] :=
  ⟨by rfl, by rfl, by decide, by decide⟩

/-- C3 amended: a failed upsert always leaves the `suivi_quotidien` rows
unchanged, and leaves the whole store unchanged whenever the field is not
the consumption metric; for the consumption metric the ledger statement
(already committed in autocommit mode) may survive the failure. -/
theorem upsert_failed_frame (db : DB) (semaine_id age : Int) (field value : String) (e : AppError)
    (h : (upsert_suivi_quotidien_field db semaine_id age field value).2 = .error e) :
    (upsert_suivi_quotidien_field db semaine_id age field value).1.suivi_quotidien
      = db.suivi_quotidien ∧
    (field ≠ "alimentation_par_jour" →
      (upsert_suivi_quotidien_field db semaine_id age field value).1 = db) := by
  unfold upsert_suivi_quotidien_field at h ⊢
  cases hsem : findSemaine db semaine_id with
  | none =>
    simp [hsem]
  | some s =>
    simp only [hsem] at h ⊢
    cases hbat : findBatiment db s.batiment_id with
    | none =>
      simp [hbat]
    | some b =>
      simp only [hbat] at h ⊢
      cases hkey : findSuiviByKey db semaine_id age with
      | none =>
        simp only [hkey] at h ⊢
        exact upsertNew_error_frame _ _ _ _ _ _ _ h
      | some ex =>
        simp only [hkey] at h ⊢
        exact upsertExisting_error_frame _ _ _ _ _ _ h

/-- Witness for the amended C3: an upsert against a nonexistent semaine
fails and leaves the store untouched. -/
theorem upsert_failed_frame_w :
    (upsert_suivi_quotidien_field dbEmptyGrid 9 1 "deces_par_jour" "4").2 =
      .error (.semaineNotFound 9) ∧
    (upsert_suivi_quotidien_field dbEmptyGrid 9 1 "deces_par_jour" "4").1 = dbEmptyGrid :=
  ⟨by rfl, (upsert_failed_frame dbEmptyGrid 9 1 "deces_par_jour" "4" _ (by rfl)).2 (by decide)⟩

/-! ## Claim C8 — dangling soins reference is rejected with no write -/

/-- C8: an upsert of `soins_id` whose value parses to an id absent from
the `soins` catalog hard-fails with the error naming that id, and the
store — day rows and ledger alike — is exactly unchanged, whether or not
a day row already existed at the address. -/
theorem upsert_dangling_soin_rejected (db : DB) (semaine_id age soin_id : Int) (value : String)
    (hinv : DBInv db)
    (hres : (resolveBande db semaine_id).isSome = true)
    (hv : value ≠ "")
    (hp : parseI64 value = some soin_id)
    (hns : soinExists db soin_id = false) :
    upsert_suivi_quotidien_field db semaine_id age "soins_id" value =
      (db, .error (.soinNotFound soin_id)) := by
  cases hsem : findSemaine db semaine_id with
  | none => exact absurd hres (by simp [resolveBande, hsem])
  | some s =>
    cases hbat : findBatiment db s.batiment_id with
    | none => exact absurd hres (by simp [resolveBande, hsem, hbat])
    | some b =>
      rw [upsert_dispatch db semaine_id age "soins_id" value hsem hbat]
      cases hkey : findSuiviByKey db semaine_id age with
      | none =>
        rw [upsertNew_soins, if_neg (by simpa using hv)]
        simp only [hp]
        rw [if_neg (by simp [hns])]
      | some ex =>
        have hmem := (findSuiviByKey_props hkey).1
        show upsertExisting db b.bande_id ex.id "soins_id" value =
          (db, .error (.soinNotFound soin_id))
        rw [upsertExisting_soins, findSuiviById_self hinv.suivi_ids hmem]
        simp only []
        rw [if_neg (by simpa using hv)]
        simp only [hp]
        rw [if_neg (by simp [hns])]

/-- Witness for C8 at a concrete store (both branches representable; here
the address already holds a row). -/
theorem upsert_dangling_soin_rejected_w :
    parseI64 "9" = some 9 ∧ soinExists dbOneRow 9 = false ∧
    upsert_suivi_quotidien_field dbOneRow 1 1 "soins_id" "9" =
      (dbOneRow, .error (.soinNotFound 9)) :=
  ⟨by rfl, by rfl,
    upsert_dangling_soin_rejected dbOneRow 1 1 9 "9"
      ⟨by decide, by decide, by decide, by decide, by decide, by decide, by decide⟩
      (by rfl) (by decide) (by rfl) (by rfl)⟩


/-! ## Result-row lemmas for successful writes -/

theorem suiviRepoUpdate_ok_row (db : DB) (u : UpdateSuiviQuotidien) (row : SuiviRow)
    (h : (suiviRepoUpdate db u).2 = .ok row) : row = rowOfUpdate u := by
  rcases hE : suiviRepoUpdate db u with ⟨db1, r⟩
  rw [hE] at h
  unfold suiviRepoUpdate at hE
  split at hE
  · cases hE; simp at h
  · split at hE
    · cases hE; simp at h
    · split at hE
      · cases hE; simp at h
      · split at hE
        · cases hE; simp at h
        · split at hE
          · cases hE; simp at h
          · cases hE
            cases h
            rfl

theorem suiviRepoCreate_ok_row (db : DB) (c : CreateSuiviQuotidien) (row : SuiviRow)
    (h : (suiviRepoCreate db c).2 = .ok row) : row = rowOfCreate db c := by
  rcases hE : suiviRepoCreate db c with ⟨db1, r⟩
  rw [hE] at h
  unfold suiviRepoCreate at hE
  split at hE
  · cases hE; simp at h
  · split at hE
    · cases hE; simp at h
    · split at hE
      · cases hE; simp at h
      · split at hE
        · cases hE; simp at h
        · cases hE
          cases h
          rfl

/-! ## The stored value of the addressed field after a successful upsert -/

theorem upsert_ok_deces (db : DB) (sid ag : Int) (value : String) (row : SuiviRow)
    (hok : (upsert_suivi_quotidien_field db sid ag "deces_par_jour" value).2 = .ok row) :
    row.deces_par_jour = parseI32 value := by
  unfold upsert_suivi_quotidien_field at hok
  cases hsem : findSemaine db sid <;> simp only [hsem] at hok
  · simp at hok
  case some s =>
  cases hbat : findBatiment db s.batiment_id <;> simp only [hbat] at hok
  · simp at hok
  case some b =>
  cases hkey : findSuiviByKey db sid ag <;> simp only [hkey] at hok
  · rw [upsertNew_deces] at hok
    rw [suiviRepoCreate_ok_row _ _ _ hok]
    rfl
  case some ex =>
  rw [upsertExisting_deces] at hok
  cases hcur : findSuiviById db ex.id <;> simp only [hcur] at hok
  · simp at hok
  · rw [suiviRepoUpdate_ok_row _ _ _ hok]
    rfl

theorem upsert_ok_alim (db : DB) (sid ag : Int) (value : String) (row : SuiviRow)
    (hok : (upsert_suivi_quotidien_field db sid ag "alimentation_par_jour" value).2 = .ok row) :
    row.alimentation_par_jour = (if value = "" then none else some ((parseF64 value).getD 0)) := by
  unfold upsert_suivi_quotidien_field at hok
  cases hsem : findSemaine db sid <;> simp only [hsem] at hok
  · simp at hok
  case some s =>
  cases hbat : findBatiment db s.batiment_id <;> simp only [hbat] at hok
  · simp at hok
  case some b =>
  cases hkey : findSuiviByKey db sid ag <;> simp only [hkey] at hok
  · rw [upsertNew_alim] at hok
    rw [suiviRepoCreate_ok_row _ _ _ hok]
    rfl
  case some ex =>
  rw [upsertExisting_alim] at hok
  cases hcur : findSuiviById db ex.id <;> simp only [hcur] at hok
  · simp at hok
  · rw [suiviRepoUpdate_ok_row _ _ _ hok]
    rfl

theorem upsert_ok_soins_empty (db : DB) (sid ag : Int) (row : SuiviRow)
    (hok : (upsert_suivi_quotidien_field db sid ag "soins_id" "").2 = .ok row) :
    row.soins_id = none := by
  unfold upsert_suivi_quotidien_field at hok
  cases hsem : findSemaine db sid <;> simp only [hsem] at hok
  · simp at hok
  case some s =>
  cases hbat : findBatiment db s.batiment_id <;> simp only [hbat] at hok
  · simp at hok
  case some b =>
  cases hkey : findSuiviByKey db sid ag <;> simp only [hkey] at hok
  · rw [upsertNew_soins, if_pos rfl] at hok
    rw [suiviRepoCreate_ok_row _ _ _ hok]
    rfl
  case some ex =>
  rw [upsertExisting_soins] at hok
  cases hcur : findSuiviById db ex.id <;> simp only [hcur] at hok
  · simp at hok
  · rw [if_pos trivial] at hok
    rw [suiviRepoUpdate_ok_row _ _ _ hok]
    rfl

theorem upsert_ok_quantite (db : DB) (sid ag : Int) (value : String) (row : SuiviRow)
    (hok : (upsert_suivi_quotidien_field db sid ag "soins_quantite" value).2 = .ok row) :
    row.soins_quantite = (if value = "" then none else some value) := by
  unfold upsert_suivi_quotidien_field at hok
  cases hsem : findSemaine db sid <;> simp only [hsem] at hok
  · simp at hok
  case some s =>
  cases hbat : findBatiment db s.batiment_id <;> simp only [hbat] at hok
  · simp at hok
  case some b =>
  cases hkey : findSuiviByKey db sid ag <;> simp only [hkey] at hok
  · rw [upsertNew_quantite] at hok
    rw [suiviRepoCreate_ok_row _ _ _ hok]
    rfl
  case some ex =>
  rw [upsertExisting_quantite] at hok
  cases hcur : findSuiviById db ex.id <;> simp only [hcur] at hok
  · simp at hok
  · rw [suiviRepoUpdate_ok_row _ _ _ hok]
    rfl

theorem upsert_ok_analyses (db : DB) (sid ag : Int) (value : String) (row : SuiviRow)
    (hok : (upsert_suivi_quotidien_field db sid ag "analyses" value).2 = .ok row) :
    row.analyses = (if value = "" then none else some value) := by
  unfold upsert_suivi_quotidien_field at hok
  cases hsem : findSemaine db sid <;> simp only [hsem] at hok
  · simp at hok
  case some s =>
  cases hbat : findBatiment db s.batiment_id <;> simp only [hbat] at hok
  · simp at hok
  case some b =>
  cases hkey : findSuiviByKey db sid ag <;> simp only [hkey] at hok
  · rw [upsertNew_analyses] at hok
    rw [suiviRepoCreate_ok_row _ _ _ hok]
    rfl
  case some ex =>
  rw [upsertExisting_analyses] at hok
  cases hcur : findSuiviById db ex.id <;> simp only [hcur] at hok
  · simp at hok
  · rw [suiviRepoUpdate_ok_row _ _ _ hok]
    rfl

theorem upsert_ok_remarques (db : DB) (sid ag : Int) (value : String) (row : SuiviRow)
    (hok : (upsert_suivi_quotidien_field db sid ag "remarques" value).2 = .ok row) :
    row.remarques = (if value = "" then none else some value) := by
  unfold upsert_suivi_quotidien_field at hok
  cases hsem : findSemaine db sid <;> simp only [hsem] at hok
  · simp at hok
  case some s =>
  cases hbat : findBatiment db s.batiment_id <;> simp only [hbat] at hok
  · simp at hok
  case some b =>
  cases hkey : findSuiviByKey db sid ag <;> simp only [hkey] at hok
  · rw [upsertNew_remarques] at hok
    rw [suiviRepoCreate_ok_row _ _ _ hok]
    rfl
  case some ex =>
  rw [upsertExisting_remarques] at hok
  cases hcur : findSuiviById db ex.id <;> simp only [hcur] at hok
  · simp at hok
  · rw [suiviRepoUpdate_ok_row _ _ _ hok]
    rfl


/-! ## Claim C7 — parsing semantics of the upsert -/

/-- C7 counterexample: the claim says an unparsable non-empty numeric
value is dropped so the field keeps its prior stored value; in the code,
upserting `deces_par_jour` with `"abc"` over a row storing `5` writes
`parse().ok() = None` into the row — the prior value `5` is lost. -/
theorem upsert_unparsable_cx :
    ((findSuiviByKey dbOneRow 1 1).map (fun r => r.deces_par_jour)) = some (some 5) ∧
    parseI32 "abc" = none ∧
    ((findSuiviByKey (upsert_suivi_quotidien_field dbOneRow 1 1 "deces_par_jour" "abc").1 1 1).map
        (fun r => r.deces_par_jour)) = some none ∧
    (some none : Option (Option Int)) ≠ some (some 5) :=
  ⟨by rfl, by rfl, by rfl, by decide⟩

/-- C7 amended: an empty-string value clears the addressed field to null
for every addressable field (first six conjuncts), and an unparsable
non-empty value does not keep the prior stored value: it writes null into
`deces_par_jour` and the parsed-or-zero value `0` into
`alimentation_par_jour` (last two conjuncts). -/
theorem upsert_parse_semantics :
    (∀ (db : DB) (sid ag : Int) (row : SuiviRow),
        (upsert_suivi_quotidien_field db sid ag "deces_par_jour" "").2 = .ok row →
        row.deces_par_jour = none) ∧
    (∀ (db : DB) (sid ag : Int) (row : SuiviRow),
        (upsert_suivi_quotidien_field db sid ag "alimentation_par_jour" "").2 = .ok row →
        row.alimentation_par_jour = none) ∧
    (∀ (db : DB) (sid ag : Int) (row : SuiviRow),
        (upsert_suivi_quotidien_field db sid ag "soins_id" "").2 = .ok row →
        row.soins_id = none) ∧
    (∀ (db : DB) (sid ag : Int) (row : SuiviRow),
        (upsert_suivi_quotidien_field db sid ag "soins_quantite" "").2 = .ok row →
        row.soins_quantite = none) ∧
    (∀ (db : DB) (sid ag : Int) (row : SuiviRow),
        (upsert_suivi_quotidien_field db sid ag "analyses" "").2 = .ok row →
        row.analyses = none) ∧
    (∀ (db : DB) (sid ag : Int) (row : SuiviRow),
        (upsert_suivi_quotidien_field db sid ag "remarques" "").2 = .ok row →
        row.remarques = none) ∧
    (∀ (db : DB) (sid ag : Int) (value : String) (row : SuiviRow),
        parseI32 value = none →
        (upsert_suivi_quotidien_field db sid ag "deces_par_jour" value).2 = .ok row →
        row.deces_par_jour = none) ∧
    (∀ (db : DB) (sid ag : Int) (value : String) (row : SuiviRow),
        parseF64 value = none → value ≠ "" →
        (upsert_suivi_quotidien_field db sid ag "alimentation_par_jour" value).2 = .ok row →
        row.alimentation_par_jour = some 0) := by
  refine ⟨?_, ?_, ?_, ?_, ?_, ?_, ?_, ?_⟩
  · intro db sid ag row hok
    rw [upsert_ok_deces _ _ _ _ _ hok]
    rfl
  · intro db sid ag row hok
    rw [upsert_ok_alim _ _ _ _ _ hok]
    simp
  · intro db sid ag row hok
    exact upsert_ok_soins_empty _ _ _ _ hok
  · intro db sid ag row hok
    rw [upsert_ok_quantite _ _ _ _ _ hok]
    simp
  · intro db sid ag row hok
    rw [upsert_ok_analyses _ _ _ _ _ hok]
    simp
  · intro db sid ag row hok
    rw [upsert_ok_remarques _ _ _ _ _ hok]
    simp
  · intro db sid ag value row hp hok
    rw [upsert_ok_deces _ _ _ _ _ hok]
    exact hp
  · intro db sid ag value row hp hv hok
    rw [upsert_ok_alim _ _ _ _ _ hok]
    simp [hv, hp]

/-- Witness for the amended C7: clearing `deces_par_jour` with the empty
string on a stored row succeeds and stores null. -/
theorem upsert_parse_semantics_w :
    (upsert_suivi_quotidien_field dbOneRow 1 1 "deces_par_jour" "").2 =
      .ok { rowOne with deces_par_jour := none } ∧
    ({ rowOne with deces_par_jour := none } : SuiviRow).deces_par_jour = none :=
  ⟨by rfl, upsert_parse_semantics.1 dbOneRow 1 1 _ (by rfl)⟩


/-! ## State-shape lemmas for the repository writes -/

theorem suiviRepoUpdate_state_cases (db : DB) (u : UpdateSuiviQuotidien) :
    (suiviRepoUpdate db u).1 = db ∨
    (suiviRepoUpdate db u).1 =
      { db with suivi_quotidien := db.suivi_quotidien.map (fun r =>
          if r.id == u.id then rowOfUpdate u else r) } := by
  unfold suiviRepoUpdate
  split
  · exact .inl rfl
  · split
    · exact .inl rfl
    · split
      · exact .inl rfl
      · split
        · exact .inl rfl
        · split
          · exact .inl rfl
          · exact .inr rfl

theorem suiviRepoCreate_state_cases (db : DB) (c : CreateSuiviQuotidien) :
    (suiviRepoCreate db c).1 = db ∨
    (suiviRepoCreate db c).1 =
      { db with suivi_quotidien := db.suivi_quotidien ++ [rowOfCreate db c],
                next_suivi_id := db.next_suivi_id + 1 } := by
  unfold suiviRepoCreate
  split
  · exact .inl rfl
  · split
    · exact .inl rfl
    · split
      · exact .inl rfl
      · split
        · exact .inl rfl
        · exact .inr rfl

theorem suiviRepoUpdate_bandes (db : DB) (u : UpdateSuiviQuotidien) :
    (suiviRepoUpdate db u).1.bandes = db.bandes := by
  rcases suiviRepoUpdate_state_cases db u with h | h <;> rw [h]

theorem suiviRepoCreate_bandes (db : DB) (c : CreateSuiviQuotidien) :
    (suiviRepoCreate db c).1.bandes = db.bandes := by
  rcases suiviRepoCreate_state_cases db c with h | h <;> rw [h]

theorem listMapId {α : Type _} {f : α → α} {l : List α} (h : ∀ x ∈ l, f x = x) :
    l.map f = l := by
  induction l with
  | nil => rfl
  | cons a t ih =>
    rw [List.map_cons, h a (List.mem_cons_self a t), ih (fun x hx => h x (List.mem_cons_of_mem a hx))]

theorem bandeRow_sub_zero (x : BandeRow) :
    ({ x with alimentation_contour := x.alimentation_contour - 0 }) = x := by
  cases x
  simp

/-! ## Claim C1 — ledger delta of a consumption upsert -/

/-- C1 counterexample: the claim's formula `running_total -= (new-old)*50`
fails on the create path for a negative value: upserting `"-1"` at an
empty address leaves the ledger unchanged, while the formula demands an
increase by `50`. -/
theorem upsert_alim_negative_create_cx :
    (parseF64 "-1").getD 0 = -1 ∧
    storedAlim dbEmptyGrid 1 1 = 0 ∧
    contourOf (upsert_suivi_quotidien_field dbEmptyGrid 1 1 "alimentation_par_jour" "-1").1 1
      = contourOf dbEmptyGrid 1 ∧
    contourOf dbEmptyGrid 1 - (((parseF64 "-1").getD 0) - storedAlim dbEmptyGrid 1 1) * 50
      ≠ contourOf dbEmptyGrid 1 := by
  have hp : (parseF64 "-1").getD 0 = -1 := by
    rw [show parseF64 "-1" = some (mkRat (-1) 1) from rfl]
    norm_num [Rat.mkRat_eq_div]
  have hc : contourOf dbEmptyGrid 1 = 1000 := by
    simp [contourOf, dbEmptyGrid]
  refine ⟨hp, by rfl, ?_, ?_⟩
  · have hb : (upsert_suivi_quotidien_field dbEmptyGrid 1 1 "alimentation_par_jour" "-1").1.bandes
        = dbEmptyGrid.bandes := by decide
    rw [contourOf, contourOf, hb]
  · rw [hp, show storedAlim dbEmptyGrid 1 1 = 0 from rfl, hc]
    norm_num

/-- C1 amended: an upsert of the consumption field updates the owning
bande row by exactly `running_total -= (new - old) * 50` — `old` the
stored value with unset-or-missing read as 0 — in the update path
unconditionally and in the create path whenever the parsed value is
nonnegative (a negative value at an empty address leaves the ledger
untouched); the ledger statement is issued in the same call immediately
before the day write, but in autocommit mode, not inside a shared
transaction (see C3). -/
theorem upsert_alim_bandes (db : DB) (semaine_id age : Int) (value : String)
    {s : SemaineRow} {b : BatimentRow}
    (hinv : DBInv db)
    (hsem : findSemaine db semaine_id = some s)
    (hbat : findBatiment db s.batiment_id = some b)
    (hcase : (findSuiviByKey db semaine_id age).isSome = true ∨ 0 ≤ (parseF64 value).getD 0) :
    (upsert_suivi_quotidien_field db semaine_id age "alimentation_par_jour" value).1.bandes
      = db.bandes.map (fun r =>
          if r.id == b.bande_id then
            { r with alimentation_contour :=
                r.alimentation_contour - (((parseF64 value).getD 0) - storedAlim db semaine_id age) * 50 }
          else r) := by
  rw [upsert_dispatch db semaine_id age "alimentation_par_jour" value hsem hbat]
  cases hkey : findSuiviByKey db semaine_id age with
  | some ex =>
    have hmem := (findSuiviByKey_props hkey).1
    have hstored : storedAlim db semaine_id age = ex.alimentation_par_jour.getD 0 := by
      rw [storedAlim, hkey]
    show (upsertExisting db b.bande_id ex.id "alimentation_par_jour" value).1.bandes = _
    rw [upsertExisting_alim, findSuiviById_self hinv.suivi_ids hmem]
    simp only []
    rw [suiviRepoUpdate_bandes]
    by_cases hz : ratMul (ratSub ((parseF64 value).getD 0) (ex.alimentation_par_jour.getD 0)) 50 = 0
    · rw [if_neg (by simpa using hz)]
      rw [ratMul_eq, ratSub_eq] at hz
      rw [hstored]
      refine (listMapId ?_).symm
      intro x _
      split
      · rw [hz, bandeRow_sub_zero]
      · rfl
    · rw [if_pos hz, updateBandeContour, hstored]
      simp only [ratSub_eq, ratMul_eq]
  | none =>
    have hstored : storedAlim db semaine_id age = 0 := by
      rw [storedAlim, hkey]
    have hnn : 0 ≤ (parseF64 value).getD 0 := by
      rcases hcase with hc | hc
      · rw [hkey] at hc
        simp at hc
      · exact hc
    show (upsertNew db b.bande_id semaine_id age "alimentation_par_jour" value).1.bandes = _
    rw [upsertNew_alim]
    simp only []
    rw [suiviRepoCreate_bandes]
    by_cases hpos : 0 < (parseF64 value).getD 0
    · rw [if_pos hpos, updateBandeContour, hstored]
      simp only [ratSub_eq, ratMul_eq, sub_zero]
    · have hz : (parseF64 value).getD 0 = 0 := le_antisymm (not_lt.mp hpos) hnn
      rw [if_neg hpos, hstored, hz]
      refine (listMapId ?_).symm
      intro x _
      split
      · rw [show ((0 : Rat) - 0) * 50 = 0 by norm_num, bandeRow_sub_zero]
      · rfl

/-- C1 amended (wrapper over `upsert_alim_bandes`): see that lemma for the
exact bande-row map form of the ledger update. -/
theorem upsert_alim_ledger_delta (db : DB) (semaine_id age : Int) (value : String)
    {s : SemaineRow} {b : BatimentRow}
    (hinv : DBInv db)
    (hsem : findSemaine db semaine_id = some s)
    (hbat : findBatiment db s.batiment_id = some b)
    (hcase : (findSuiviByKey db semaine_id age).isSome = true ∨ 0 ≤ (parseF64 value).getD 0) :
    (upsert_suivi_quotidien_field db semaine_id age "alimentation_par_jour" value).1.bandes
      = db.bandes.map (fun r =>
          if r.id == b.bande_id then
            { r with alimentation_contour :=
                r.alimentation_contour - (((parseF64 value).getD 0) - storedAlim db semaine_id age) * 50 }
          else r) :=
  upsert_alim_bandes db semaine_id age value hinv hsem hbat hcase

/-- Witness for the amended C1: the spec scenario — upserting `"2"` on an
empty grid drops the ledger by `2 * 50`. -/
theorem upsert_alim_ledger_delta_w :
    (upsert_suivi_quotidien_field dbEmptyGrid 1 1 "alimentation_par_jour" "2").1.bandes
      = dbEmptyGrid.bandes.map (fun r =>
          if r.id == (1 : Int) then
            { r with alimentation_contour :=
                r.alimentation_contour - (((parseF64 "2").getD 0) - storedAlim dbEmptyGrid 1 1) * 50 }
          else r) :=
  upsert_alim_ledger_delta dbEmptyGrid 1 1 "2"
    ⟨by decide, by decide, by decide, by decide, by decide, by decide, by decide⟩
    (by rfl) (by rfl) (.inr (by decide))


/-! ## Small facts feeding the invariant machinery -/

theorem semaineExists_of_find {db : DB} {i : Int} {s : SemaineRow}
    (h : findSemaine db i = some s) : semaineExists db i = true := by
  have hm := List.mem_of_find?_eq_some h
  have hp := List.find?_some h
  exact List.any_eq_true.mpr ⟨s, hm, hp⟩

theorem any_id_of_mem {db : DB} {x : SuiviRow} (hx : x ∈ db.suivi_quotidien) :
    db.suivi_quotidien.any (fun r => r.id == x.id) = true :=
  List.any_eq_true.mpr ⟨x, hx, by simp⟩

theorem find?_eq_none_any {α : Type _} {p : α → Bool} {l : List α}
    (h : l.find? p = none) : l.any p = false := by
  rw [List.any_eq_false]
  intro x hx
  exact List.find?_eq_none.mp h x hx

/-- The `UNIQUE(semaine_id, age)` re-check of the repository `UPDATE` is
quiet when the written row keeps the key of a stored row. -/
theorem unique_key_check {db : DB} (hinv : DBInv db) {ex : SuiviRow}
    (hx : ex ∈ db.suivi_quotidien) :
    db.suivi_quotidien.any (fun r =>
      r.id != ex.id && r.semaine_id == ex.semaine_id && r.age == ex.age) = false := by
  rw [List.any_eq_false]
  intro r hr hb
  have hb' : (r.id ≠ ex.id ∧ r.semaine_id = ex.semaine_id) ∧ r.age = ex.age := by
    simpa using hb
  exact hb'.1.1 (congrArg (fun q : SuiviRow => q.id)
    (eq_of_pairwise_key (fun q => (q.semaine_id, q.age)) hinv.suivi_nat_keys hr hx
      (by simp [hb'.1.2, hb'.2])))

theorem find?_append_none {α : Type _} {p : α → Bool} {l₁ l₂ : List α}
    (h : l₁.find? p = none) : (l₁ ++ l₂).find? p = l₂.find? p := by
  induction l₁ with
  | nil => rfl
  | cons a t ih =>
    rw [List.find?_cons] at h
    cases hpa : p a with
    | true => rw [hpa] at h; cases h
    | false =>
      rw [hpa] at h
      rw [List.cons_append, List.find?_cons, hpa]
      exact ih h

theorem find?_replace {l : List SuiviRow} {p : SuiviRow → Bool} {ex : SuiviRow}
    (hids : l.Pairwise (fun a b => a.id ≠ b.id))
    (hfind : l.find? p = some ex) {w : SuiviRow}
    (hpw : p w = true) :
    (l.map (fun r => if r.id == ex.id then w else r)).find? p = some w := by
  induction l with
  | nil => cases hfind
  | cons a t ih =>
    rcases List.pairwise_cons.mp hids with ⟨ha, ht⟩
    rw [List.find?_cons] at hfind
    cases hpa : p a with
    | true =>
      rw [hpa] at hfind
      cases hfind
      rw [List.map_cons, if_pos (by simp)]
      rw [List.find?_cons_of_pos _ hpw]
    | false =>
      rw [hpa] at hfind
      have hext : ex ∈ t := List.mem_of_find?_eq_some hfind
      have hane : a.id ≠ ex.id := ha ex hext
      rw [List.map_cons, if_neg (by simpa using hane)]
      rw [List.find?_cons_of_neg _ (by simp [hpa])]
      exact ih ht hfind

/-- Replacing a member row by itself is the identity. -/
theorem replace_self {l : List SuiviRow}
    (hids : l.Pairwise (fun a b => a.id ≠ b.id)) {w : SuiviRow} (hw : w ∈ l) :
    l.map (fun r => if r.id == w.id then w else r) = l := by
  refine listMapId ?_
  intro x hx
  by_cases hxe : x.id == w.id
  · rw [if_pos hxe]
    exact (eq_of_pairwise_key (fun q => q.id) hids hx hw (by simpa using hxe)).symm
  · rw [if_neg hxe]

theorem ratMul_ratSub_self (x d : Rat) : ratMul (ratSub x x) d = 0 := by
  rw [ratMul_eq, ratSub_eq]
  ring


/-! ## Success-shape lemmas carrying the constraint checks -/

theorem suiviRepoUpdate_success_checks (db : DB) (u : UpdateSuiviQuotidien) :
    (suiviRepoUpdate db u).1 = db ∨
    (danglingSoin db u.soins_id = false ∧
     (suiviRepoUpdate db u).1 =
       { db with suivi_quotidien := db.suivi_quotidien.map (fun r =>
           if r.id == u.id then rowOfUpdate u else r) }) := by
  unfold suiviRepoUpdate
  split
  · exact .inl rfl
  · split
    · exact .inl rfl
    · split
      · exact .inl rfl
      · split
        · exact .inl rfl
        · split
          · exact .inl rfl
          · next hfk => exact .inr ⟨by simpa using hfk, rfl⟩

theorem suiviRepoCreate_success_checks (db : DB) (c : CreateSuiviQuotidien) :
    (suiviRepoCreate db c).1 = db ∨
    (0 < c.age ∧
     db.suivi_quotidien.any (fun r => r.semaine_id == c.semaine_id && r.age == c.age) = false ∧
     danglingSoin db c.soins_id = false ∧
     (suiviRepoCreate db c).1 =
       { db with suivi_quotidien := db.suivi_quotidien ++ [rowOfCreate db c],
                 next_suivi_id := db.next_suivi_id + 1 }) := by
  unfold suiviRepoCreate
  split
  · exact .inl rfl
  · split
    · exact .inl rfl
    · next hage =>
      split
      · exact .inl rfl
      · next hkeyn =>
        split
        · exact .inl rfl
        · next hfk =>
          exact .inr ⟨by omega, by simpa using hkeyn, by simpa using hfk, rfl⟩

/-! ## `DBInv` preservation -/

theorem pairwise_ne_key_map {α κ : Type _} (key : α → κ) {l : List α} {f : α → α}
    (hf : ∀ x ∈ l, key (f x) = key x)
    (h : l.Pairwise (fun a b => key a ≠ key b)) :
    (l.map f).Pairwise (fun a b => key a ≠ key b) := by
  rw [List.pairwise_map]
  refine h.imp_of_mem ?_
  intro a b ha hb hab
  rw [hf a ha, hf b hb]
  exact hab

theorem inv_updateBandeContour (db : DB) (bid : Int) (d : Rat) (hinv : DBInv db) :
    DBInv (updateBandeContour db bid d) := by
  have hf : ∀ x ∈ db.bandes,
      ((if x.id == bid then { x with alimentation_contour := ratSub x.alimentation_contour d } else x) : BandeRow).id = x.id := by
    intro x _
    split <;> rfl
  constructor
  · exact hinv.suivi_ids
  · exact hinv.suivi_nat_keys
  · exact hinv.suivi_id_lt
  · exact hinv.suivi_age_pos
  · exact hinv.suivi_soins_fk
  · exact pairwise_ne_key_map (fun (r : BandeRow) => r.id) hf hinv.bande_ids
  · intro bt hbt
    have hb := hinv.batiment_bande_fk bt hbt
    rcases List.any_eq_true.mp hb with ⟨bd, hbd, hbdid⟩
    refine List.any_eq_true.mpr ?_
    refine ⟨(if bd.id == bid then { bd with alimentation_contour := ratSub bd.alimentation_contour d } else bd), List.mem_map.mpr ⟨bd, hbd, rfl⟩, ?_⟩
    have := hf bd hbd
    simp only [this]
    exact hbdid

theorem inv_replaceRow (db : DB) (u : UpdateSuiviQuotidien)
    (hinv : DBInv db)
    (hkeep : ∀ r ∈ db.suivi_quotidien, r.id = u.id →
      r.semaine_id = u.semaine_id ∧ r.age = u.age)
    (hfk : danglingSoin db u.soins_id = false) :
    DBInv { db with suivi_quotidien := db.suivi_quotidien.map (fun r =>
      if r.id == u.id then rowOfUpdate u else r) } := by
  have fid : ∀ r ∈ db.suivi_quotidien,
      ((if r.id == u.id then rowOfUpdate u else r) : SuiviRow).id = r.id := by
    intro r _
    by_cases h : r.id == u.id
    · rw [if_pos h]
      exact (beq_iff_eq.mp h).symm
    · rw [if_neg h]
  have fkey : ∀ r ∈ db.suivi_quotidien,
      (((if r.id == u.id then rowOfUpdate u else r) : SuiviRow).semaine_id,
       ((if r.id == u.id then rowOfUpdate u else r) : SuiviRow).age) = (r.semaine_id, r.age) := by
    intro r hr
    by_cases h : r.id == u.id
    · rw [if_pos h]
      have hk := hkeep r hr (beq_iff_eq.mp h)
      show (u.semaine_id, u.age) = (r.semaine_id, r.age)
      rw [hk.1, hk.2]
    · rw [if_neg h]
  constructor
  · exact pairwise_ne_key_map (fun (r : SuiviRow) => r.id) fid hinv.suivi_ids
  · exact pairwise_ne_key_map (fun (r : SuiviRow) => (r.semaine_id, r.age)) fkey hinv.suivi_nat_keys
  · intro r' hr'
    rcases List.mem_map.mp hr' with ⟨r, hr, rfl⟩
    rw [fid r hr]
    exact hinv.suivi_id_lt r hr
  · intro r' hr'
    rcases List.mem_map.mp hr' with ⟨r, hr, rfl⟩
    have := congrArg Prod.snd (fkey r hr)
    simp only [] at this
    rw [this]
    exact hinv.suivi_age_pos r hr
  · intro r' hr'
    rcases List.mem_map.mp hr' with ⟨r, hr, rfl⟩
    by_cases h : r.id == u.id
    · rw [if_pos h]
      exact hfk
    · rw [if_neg h]
      exact hinv.suivi_soins_fk r hr
  · exact hinv.bande_ids
  · exact hinv.batiment_bande_fk

theorem inv_insertRow (db : DB) (c : CreateSuiviQuotidien)
    (hinv : DBInv db) (hage : 0 < c.age)
    (hkeynot : db.suivi_quotidien.any (fun r =>
      r.semaine_id == c.semaine_id && r.age == c.age) = false)
    (hfk : danglingSoin db c.soins_id = false) :
    DBInv { db with suivi_quotidien := db.suivi_quotidien ++ [rowOfCreate db c],
                    next_suivi_id := db.next_suivi_id + 1 } := by
  have hkeynot' := List.any_eq_false.mp hkeynot
  constructor
  · refine List.pairwise_append.mpr ⟨hinv.suivi_ids, List.pairwise_singleton _ _, ?_⟩
    intro a ha b hb
    rw [List.mem_singleton.mp hb]
    exact ne_of_lt (hinv.suivi_id_lt a ha)
  · refine List.pairwise_append.mpr ⟨hinv.suivi_nat_keys, List.pairwise_singleton _ _, ?_⟩
    intro a ha b hb
    rw [List.mem_singleton.mp hb]
    have hne := hkeynot' a ha
    simp only [Bool.and_eq_true, beq_iff_eq, not_and] at hne
    show (a.semaine_id, a.age) ≠ (c.semaine_id, c.age)
    intro hcontra
    rw [Prod.ext_iff] at hcontra
    exact hne hcontra.1 hcontra.2
  · intro r hr
    show r.id < db.next_suivi_id + 1
    rcases List.mem_append.mp hr with h | h
    · have := hinv.suivi_id_lt r h
      omega
    · rw [List.mem_singleton.mp h]
      show db.next_suivi_id < db.next_suivi_id + 1
      omega
  · intro r hr
    rcases List.mem_append.mp hr with h | h
    · exact hinv.suivi_age_pos r h
    · rw [List.mem_singleton.mp h]
      exact hage
  · intro r hr
    rcases List.mem_append.mp hr with h | h
    · exact hinv.suivi_soins_fk r h
    · rw [List.mem_singleton.mp h]
      exact hfk
  · exact hinv.bande_ids
  · exact hinv.batiment_bande_fk


theorem inv_after_repoUpdate (db : DB) (u : UpdateSuiviQuotidien) (hinv : DBInv db)
    (hkeep : ∀ r ∈ db.suivi_quotidien, r.id = u.id →
      r.semaine_id = u.semaine_id ∧ r.age = u.age) :
    DBInv (suiviRepoUpdate db u).1 := by
  rcases suiviRepoUpdate_success_checks db u with h | ⟨hfk, h⟩
  · rw [h]
    exact hinv
  · rw [h]
    exact inv_replaceRow db u hinv hkeep hfk

theorem inv_after_repoCreate (db : DB) (c : CreateSuiviQuotidien) (hinv : DBInv db) :
    DBInv (suiviRepoCreate db c).1 := by
  rcases suiviRepoCreate_success_checks db c with h | ⟨hage, hkeyn, hfk, h⟩
  · rw [h]
    exact hinv
  · rw [h]
    exact inv_insertRow db c hinv hage hkeyn hfk

theorem upsertExisting_preserves_inv (db : DB) (bid eid : Int) (field value : String)
    (hinv : DBInv db) : DBInv (upsertExisting db bid eid field value).1 := by
  unfold upsertExisting
  cases hcur : findSuiviById db eid with
  | none =>
    simp only [hcur]
    exact hinv
  | some current =>
    simp only [hcur]
    have hcmem : current ∈ db.suivi_quotidien := List.mem_of_find?_eq_some hcur
    have hcid : current.id = eid := by simpa using List.find?_some hcur
    have hkeep : ∀ u' : UpdateSuiviQuotidien, u'.id = eid →
        u'.semaine_id = current.semaine_id → u'.age = current.age →
        ∀ r ∈ db.suivi_quotidien, r.id = u'.id →
          r.semaine_id = u'.semaine_id ∧ r.age = u'.age := by
      intro u' hid hsem hag r hr hrid
      have hre : r = current := by
        refine eq_of_pairwise_key (fun q : SuiviRow => q.id) hinv.suivi_ids hr hcmem ?_
        show r.id = current.id
        rw [hrid, hid, hcid]
      rw [hre, hsem, hag]
      exact ⟨rfl, rfl⟩
    have hkeep1 : ∀ (db1 : DB), db1.suivi_quotidien = db.suivi_quotidien →
        ∀ u' : UpdateSuiviQuotidien, u'.id = eid →
        u'.semaine_id = current.semaine_id → u'.age = current.age →
        ∀ r ∈ db1.suivi_quotidien, r.id = u'.id →
          r.semaine_id = u'.semaine_id ∧ r.age = u'.age := by
      intro db1 heq u' hid hsem hag
      rw [heq]
      exact hkeep u' hid hsem hag
    split
    · exact inv_after_repoUpdate db _ hinv (hkeep _ rfl rfl rfl)
    · refine inv_after_repoUpdate _ _ ?_ (hkeep1 _ (by split <;> rfl) _ rfl rfl rfl)
      split
      · exact inv_updateBandeContour db bid _ hinv
      · exact hinv
    · split
      · exact inv_after_repoUpdate db _ hinv (hkeep _ rfl rfl rfl)
      · split
        · split
          · exact inv_after_repoUpdate db _ hinv (hkeep _ rfl rfl rfl)
          · exact hinv
        · exact inv_after_repoUpdate db _ hinv (hkeep _ rfl rfl rfl)
    · exact inv_after_repoUpdate db _ hinv (hkeep _ rfl rfl rfl)
    · exact inv_after_repoUpdate db _ hinv (hkeep _ rfl rfl rfl)
    · exact inv_after_repoUpdate db _ hinv (hkeep _ rfl rfl rfl)
    · exact hinv

theorem upsertNew_preserves_inv (db : DB) (bid sid ag : Int) (field value : String)
    (hinv : DBInv db) : DBInv (upsertNew db bid sid ag field value).1 := by
  have hinv1 : ∀ d : Rat, DBInv (if 0 < (parseF64 value).getD 0 then
      updateBandeContour db bid d else db) := by
    intro d
    split
    · exact inv_updateBandeContour db bid d hinv
    · exact hinv
  unfold upsertNew
  split
  · exact inv_after_repoCreate db _ hinv
  · exact inv_after_repoCreate _ _ (hinv1 _)
  · split
    · exact inv_after_repoCreate db _ hinv
    · split
      · split
        · exact inv_after_repoCreate db _ hinv
        · exact hinv
      · exact inv_after_repoCreate db _ hinv
  · exact inv_after_repoCreate db _ hinv
  · exact inv_after_repoCreate db _ hinv
  · exact inv_after_repoCreate db _ hinv
  · exact hinv

/-- Every call of the upsert command preserves the schema invariants. -/
theorem upsert_preserves_inv (db : DB) (semaine_id age : Int) (field value : String)
    (hinv : DBInv db) :
    DBInv (upsert_suivi_quotidien_field db semaine_id age field value).1 := by
  unfold upsert_suivi_quotidien_field
  cases hsem : findSemaine db semaine_id with
  | none =>
    simp only [hsem]
    exact hinv
  | some s =>
    simp only [hsem]
    cases hbat : findBatiment db s.batiment_id with
    | none =>
      simp only [hbat]
      exact hinv
    | some b =>
      simp only [hbat]
      cases hkey : findSuiviByKey db semaine_id age with
      | some ex =>
        simp only [hkey]
        exact upsertExisting_preserves_inv db b.bande_id ex.id field value hinv
      | none =>
        simp only [hkey]
        exact upsertNew_preserves_inv db b.bande_id semaine_id age field value hinv


/-! ## Identity of the day-row id set under the upsert -/

theorem ids_map_replace (l : List SuiviRow) (u : UpdateSuiviQuotidien) :
    (l.map (fun r => if r.id == u.id then rowOfUpdate u else r)).map (fun r => r.id)
      = l.map (fun r => r.id) := by
  rw [List.map_map]
  refine List.map_congr_left ?_
  intro r _
  show ((if r.id == u.id then rowOfUpdate u else r) : SuiviRow).id = r.id
  by_cases h : r.id == u.id
  · rw [if_pos h]
    exact (beq_iff_eq.mp h).symm
  · rw [if_neg h]

theorem repoUpdate_ids (db : DB) (u : UpdateSuiviQuotidien) :
    (suiviRepoUpdate db u).1.suivi_quotidien.map (fun r => r.id)
      = db.suivi_quotidien.map (fun r => r.id) := by
  rcases suiviRepoUpdate_success_checks db u with h | ⟨_, h⟩
  · rw [h]
  · rw [h]
    exact ids_map_replace _ _

theorem upsertExisting_ids (db : DB) (bid eid : Int) (field value : String) :
    (upsertExisting db bid eid field value).1.suivi_quotidien.map (fun r => r.id)
      = db.suivi_quotidien.map (fun r => r.id) := by
  unfold upsertExisting
  cases hcur : findSuiviById db eid with
  | none =>
    simp only [hcur]
  | some current =>
    simp only [hcur]
    split
    · exact repoUpdate_ids db _
    · refine (repoUpdate_ids _ _).trans ?_
      rw [show (if ratMul (ratSub ((parseF64 value).getD 0) (current.alimentation_par_jour.getD 0)) 50 ≠ 0 then
          updateBandeContour db bid (ratMul (ratSub ((parseF64 value).getD 0) (current.alimentation_par_jour.getD 0)) 50) else db).suivi_quotidien
          = db.suivi_quotidien from by split <;> rfl]
    · split
      · exact repoUpdate_ids db _
      · split
        · split
          · exact repoUpdate_ids db _
          · rfl
        · exact repoUpdate_ids db _
    · exact repoUpdate_ids db _
    · exact repoUpdate_ids db _
    · exact repoUpdate_ids db _
    · rfl

theorem suiviRepoCreate_ok_state (db : DB) (c : CreateSuiviQuotidien) (row : SuiviRow)
    (h : (suiviRepoCreate db c).2 = .ok row) :
    (suiviRepoCreate db c).1.suivi_quotidien = db.suivi_quotidien ++ [row] := by
  rcases hE : suiviRepoCreate db c with ⟨db1, r⟩
  rw [hE] at h
  simp only [hE]
  unfold suiviRepoCreate at hE
  split at hE
  · cases hE; simp at h
  · split at hE
    · cases hE; simp at h
    · split at hE
      · cases hE; simp at h
      · split at hE
        · cases hE; simp at h
        · cases hE
          cases h
          rfl

theorem suiviRepoCreate_pair_ok (db0 : DB) (c : CreateSuiviQuotidien) (db1 : DB)
    (r : Except AppError SuiviRow) (row : SuiviRow)
    (hE : suiviRepoCreate db0 c = (db1, r)) (h : r = .ok row) :
    db1.suivi_quotidien = db0.suivi_quotidien ++ [row] ∧ row = rowOfCreate db0 c := by
  have h2 : (suiviRepoCreate db0 c).2 = .ok row := by rw [hE]; exact h
  have hst := suiviRepoCreate_ok_state _ _ _ h2
  have hrow := suiviRepoCreate_ok_row _ _ _ h2
  rw [hE] at hst
  exact ⟨hst, hrow⟩

theorem upsertNew_ok_suivi (db : DB) (bid sid ag : Int) (field value : String) (row : SuiviRow)
    (h : (upsertNew db bid sid ag field value).2 = .ok row) :
    (upsertNew db bid sid ag field value).1.suivi_quotidien = db.suivi_quotidien ++ [row] ∧
    row.semaine_id = sid ∧ row.age = ag := by
  rcases hE : upsertNew db bid sid ag field value with ⟨db1, r⟩
  rw [hE] at h
  simp only [hE]
  unfold upsertNew at hE
  split at hE
  · rcases suiviRepoCreate_pair_ok _ _ _ _ _ hE h with ⟨hst, hrow⟩
    exact ⟨hst, by rw [hrow]; exact ⟨rfl, rfl⟩⟩
  · rcases suiviRepoCreate_pair_ok _ _ _ _ _ hE h with ⟨hst, hrow⟩
    refine ⟨hst.trans ?_, by rw [hrow]; exact ⟨rfl, rfl⟩⟩
    rw [show (if 0 < (parseF64 value).getD 0 then
        updateBandeContour db bid (ratMul ((parseF64 value).getD 0) 50) else db).suivi_quotidien
        = db.suivi_quotidien from by split <;> rfl]
  · split at hE
    · rcases suiviRepoCreate_pair_ok _ _ _ _ _ hE h with ⟨hst, hrow⟩
      exact ⟨hst, by rw [hrow]; exact ⟨rfl, rfl⟩⟩
    · split at hE
      · split at hE
        · rcases suiviRepoCreate_pair_ok _ _ _ _ _ hE h with ⟨hst, hrow⟩
          exact ⟨hst, by rw [hrow]; exact ⟨rfl, rfl⟩⟩
        · cases hE
          simp at h
      · rcases suiviRepoCreate_pair_ok _ _ _ _ _ hE h with ⟨hst, hrow⟩
        exact ⟨hst, by rw [hrow]; exact ⟨rfl, rfl⟩⟩
  · rcases suiviRepoCreate_pair_ok _ _ _ _ _ hE h with ⟨hst, hrow⟩
    exact ⟨hst, by rw [hrow]; exact ⟨rfl, rfl⟩⟩
  · rcases suiviRepoCreate_pair_ok _ _ _ _ _ hE h with ⟨hst, hrow⟩
    exact ⟨hst, by rw [hrow]; exact ⟨rfl, rfl⟩⟩
  · rcases suiviRepoCreate_pair_ok _ _ _ _ _ hE h with ⟨hst, hrow⟩
    exact ⟨hst, by rw [hrow]; exact ⟨rfl, rfl⟩⟩
  · cases hE
    simp at h

/-! ## Claim C6 — upsert by natural key -/

/-- C6: the upsert never creates a duplicate day entry for a `(semaine_id,
age)` address (the natural-key uniqueness invariant is preserved by every
call); an upsert on an address holding a row updates that row in place
(the stored id sequence is unchanged); and a successful upsert on an
empty address appends exactly one new row carrying that natural key. -/
theorem upsert_natural_key (db : DB) (semaine_id age : Int) (field value : String)
    (hinv : DBInv db) :
    ((upsert_suivi_quotidien_field db semaine_id age field value).1).suivi_quotidien.Pairwise
      (fun a b => (a.semaine_id, a.age) ≠ (b.semaine_id, b.age)) ∧
    ((findSuiviByKey db semaine_id age).isSome = true →
      ((upsert_suivi_quotidien_field db semaine_id age field value).1).suivi_quotidien.map (fun r => r.id)
        = db.suivi_quotidien.map (fun r => r.id)) ∧
    (∀ row, findSuiviByKey db semaine_id age = none →
      (upsert_suivi_quotidien_field db semaine_id age field value).2 = .ok row →
      ((upsert_suivi_quotidien_field db semaine_id age field value).1).suivi_quotidien
        = db.suivi_quotidien ++ [row] ∧ row.semaine_id = semaine_id ∧ row.age = age) := by
  refine ⟨(upsert_preserves_inv db semaine_id age field value hinv).suivi_nat_keys, ?_, ?_⟩
  · intro hsome
    unfold upsert_suivi_quotidien_field
    cases hsem : findSemaine db semaine_id with
    | none => simp only [hsem]
    | some s =>
      simp only [hsem]
      cases hbat : findBatiment db s.batiment_id with
      | none => simp only [hbat]
      | some b =>
        simp only [hbat]
        cases hkey : findSuiviByKey db semaine_id age with
        | none =>
          rw [hkey] at hsome
          simp at hsome
        | some ex =>
          simp only [hkey]
          exact upsertExisting_ids db b.bande_id ex.id field value
  · intro row hkey hok
    unfold upsert_suivi_quotidien_field at hok ⊢
    cases hsem : findSemaine db semaine_id with
    | none =>
      simp only [hsem] at hok
      simp at hok
    | some s =>
      simp only [hsem] at hok ⊢
      cases hbat : findBatiment db s.batiment_id with
      | none =>
        simp only [hbat] at hok
        simp at hok
      | some b =>
        simp only [hbat] at hok ⊢
        simp only [hkey] at hok ⊢
        exact upsertNew_ok_suivi db b.bande_id semaine_id age field value row hok

/-- Witness for C6 at a concrete store: updating an occupied address keeps
the id sequence; the uniqueness invariant holds afterwards. -/
theorem upsert_natural_key_w :
    (findSuiviByKey dbOneRow 1 1).isSome = true ∧
    ((upsert_suivi_quotidien_field dbOneRow 1 1 "remarques" "ras").1).suivi_quotidien.map (fun r => r.id)
      = dbOneRow.suivi_quotidien.map (fun r => r.id) ∧
    ((upsert_suivi_quotidien_field dbOneRow 1 1 "remarques" "ras").1).suivi_quotidien.Pairwise
      (fun a b => (a.semaine_id, a.age) ≠ (b.semaine_id, b.age)) :=
  ⟨by rfl,
   (upsert_natural_key dbOneRow 1 1 "remarques" "ras"
      ⟨by decide, by decide, by decide, by decide, by decide, by decide, by decide⟩).2.1 (by rfl),
   (upsert_natural_key dbOneRow 1 1 "remarques" "ras"
      ⟨by decide, by decide, by decide, by decide, by decide, by decide, by decide⟩).1⟩


/-! ## Claim C2 — ledger conservation over upsert sequences -/

theorem contour_filter_map_sub (l : List BandeRow) (bid B : Int) (d : Rat)
    (hids : l.Pairwise (fun a b => a.id ≠ b.id))
    (hex : l.any (fun r => r.id == bid) = true) :
    (((l.map (fun r => if r.id == bid then
        { r with alimentation_contour := r.alimentation_contour - d } else r)).filter
        (fun r => r.id == B)).map (fun r => r.alimentation_contour)).sum
      = ((l.filter (fun r => r.id == B)).map (fun r => r.alimentation_contour)).sum
        - (if bid = B then d else 0) := by
  induction l with
  | nil => simp at hex
  | cons a t ih =>
    rcases List.pairwise_cons.mp hids with ⟨ha, ht⟩
    rw [List.map_cons]
    by_cases hab : (a.id == bid) = true
    · have habid : a.id = bid := beq_iff_eq.mp hab
      have hta : t.map (fun r => if r.id == bid then
          { r with alimentation_contour := r.alimentation_contour - d } else r) = t := by
        refine listMapId ?_
        intro x hx
        rw [if_neg]
        intro hc
        exact ha x hx (by rw [habid, beq_iff_eq.mp hc])
      rw [if_pos hab, hta]
      by_cases hB : (a.id == B) = true
      · have hbidB : bid = B := by rw [← habid]; exact beq_iff_eq.mp hB
        simp only [List.filter_cons, hB, if_true]
        rw [List.map_cons, List.map_cons, List.sum_cons, List.sum_cons, if_pos hbidB]
        ring
      · have hbidB : bid ≠ B := by
          rw [← habid]
          simpa using hB
        simp only [List.filter_cons, hB, Bool.false_eq_true, if_false]
        rw [if_neg hbidB]
        simp
    · have hex' : t.any (fun r => r.id == bid) = true := by
        rcases List.any_eq_true.mp hex with ⟨x, hx, hpx⟩
        rcases List.mem_cons.mp hx with rfl | hxt
        · exact absurd hpx hab
        · exact List.any_eq_true.mpr ⟨x, hxt, hpx⟩
      rw [if_neg hab]
      by_cases hB : (a.id == B) = true
      · simp only [List.filter_cons, hB, if_true]
        rw [List.map_cons, List.map_cons, List.sum_cons, List.sum_cons, ih ht hex']
        ring
      · simp only [List.filter_cons, hB, Bool.false_eq_true, if_false]
        exact ih ht hex'

/-- One consumption upsert moves the contour of every bande `B` by exactly
`-opDelta` (each `old` read from the live store), provided the parsed
value is nonnegative. -/
theorem upsert_alim_contour_step (db : DB) (B sid ag : Int) (v : String)
    (hinv : DBInv db) (hnn : 0 ≤ (parseF64 v).getD 0) :
    contourOf (upsert_suivi_quotidien_field db sid ag "alimentation_par_jour" v).1 B
      = contourOf db B - opDelta db B sid ag v := by
  cases hsem : findSemaine db sid with
  | none =>
    have hpost : (upsert_suivi_quotidien_field db sid ag "alimentation_par_jour" v).1 = db := by
      unfold upsert_suivi_quotidien_field
      rw [hsem]
    rw [hpost, opDelta, show resolveBande db sid = none from by rw [resolveBande, hsem]; rfl]
    ring
  | some s =>
    cases hbat : findBatiment db s.batiment_id with
    | none =>
      have hpost : (upsert_suivi_quotidien_field db sid ag "alimentation_par_jour" v).1 = db := by
        unfold upsert_suivi_quotidien_field
        rw [hsem]
        simp only [hbat]
      rw [hpost, opDelta, show resolveBande db sid = none from by
        rw [resolveBande, hsem]
        simp [hbat]]
      ring
    | some b =>
      have hmem_b : b ∈ db.batiments := List.mem_of_find?_eq_some hbat
      have hex : db.bandes.any (fun r => r.id == b.bande_id) = true :=
        hinv.batiment_bande_fk b hmem_b
      have hbandes := upsert_alim_bandes db sid ag v hinv hsem hbat (.inr hnn)
      have hres : resolveBande db sid = some b.bande_id := by
        rw [resolveBande, hsem]
        simp [hbat]
      rw [contourOf, contourOf, hbandes, opDelta, hres]
      exact contour_filter_map_sub db.bandes b.bande_id B _ hinv.bande_ids hex

/-- C2 counterexample: a single create-path upsert of `"-1"` leaves the
ledger at `1000`, while `initial - Σ(new_i - old_i) * 50` is `1050`. -/
theorem ledger_conservation_cx :
    contourOf (applyAlimOps dbEmptyGrid [(1, 1, "-1")]) 1 = 1000 ∧
    contourOf dbEmptyGrid 1 - sumDeltas dbEmptyGrid 1 [(1, 1, "-1")] = 1050 ∧
    (1000 : Rat) ≠ 1050 := by
  have hp : (parseF64 "-1").getD 0 = -1 := by
    rw [show parseF64 "-1" = some (mkRat (-1) 1) from rfl]
    norm_num [Rat.mkRat_eq_div]
  have hc : contourOf dbEmptyGrid 1 = 1000 := by
    simp [contourOf, dbEmptyGrid]
  refine ⟨?_, ?_, by norm_num⟩
  · have hb : (applyAlimOps dbEmptyGrid [(1, 1, "-1")]).bandes = dbEmptyGrid.bandes := by decide
    rw [contourOf, hb]
    simp [dbEmptyGrid]
  · have hsd : sumDeltas dbEmptyGrid 1 [(1, 1, "-1")] = ((parseF64 "-1").getD 0 - 0) * 50 := by
      rw [sumDeltas, sumDeltas, opDelta,
        show resolveBande dbEmptyGrid 1 = some 1 from rfl,
        show storedAlim dbEmptyGrid 1 1 = 0 from rfl]
      simp
    rw [hc, hsd, hp]
    norm_num

/-- C2 amended: for every bande and every sequence of consumption upserts
whose values parse to nonnegative numbers (unset/unparsable read as 0),
the running total after the sequence equals the initial total minus
`Σ (new_i - old_i) * 50`, each `old_i` read from the store at op `i`.
(The restriction is forced by the create-path guard `new_value > 0`; see
the counterexample.) -/
theorem ledger_conservation (db : DB) (B : Int) (ops : List (Int × Int × String))
    (hinv : DBInv db)
    (hnn : ∀ op ∈ ops, 0 ≤ (parseF64 op.2.2).getD 0) :
    contourOf (applyAlimOps db ops) B = contourOf db B - sumDeltas db B ops := by
  induction ops generalizing db with
  | nil =>
    rw [applyAlimOps, sumDeltas]
    ring
  | cons op rest ih =>
    rcases op with ⟨sid, ag, v⟩
    rw [applyAlimOps, sumDeltas]
    have hstep := upsert_alim_contour_step db B sid ag v hinv
      (by simpa using hnn (sid, ag, v) (List.mem_cons_self _ _))
    rw [ih _ (upsert_preserves_inv db sid ag "alimentation_par_jour" v hinv)
        (fun op hop => hnn op (List.mem_cons_of_mem _ hop)), hstep]
    ring

/-- Witness for the amended C2: the spec scenario `"2"` then `"5"` at one
address — the running total ends at `1000 - (2-0)*50 - (5-2)*50`. -/
theorem ledger_conservation_w :
    contourOf (applyAlimOps dbEmptyGrid [(1, 3, "2"), (1, 3, "5")]) 1
      = contourOf dbEmptyGrid 1 - sumDeltas dbEmptyGrid 1 [(1, 3, "2"), (1, 3, "5")] :=
  ledger_conservation dbEmptyGrid 1 [(1, 3, "2"), (1, 3, "5")]
    ⟨by decide, by decide, by decide, by decide, by decide, by decide, by decide⟩
    (by decide)


/-! ## Claim C5 — idempotence of the upsert

Helper layer: replaying an upsert against the state it produced finds the
row it wrote, rebuilds the very same repository call, and writes the same
bytes back. -/

theorem updateBaseOf_rowOfUpdate (u : UpdateSuiviQuotidien) :
    updateBaseOf u.id (rowOfUpdate u) = u := rfl

theorem danglingSoin_congr (dbx db : DB) (h : dbx.soins = db.soins) (o : Option Int) :
    danglingSoin dbx o = danglingSoin db o := by
  cases o with
  | none => rfl
  | some sid =>
    show (!soinExists dbx sid) = (!soinExists db sid)
    unfold soinExists
    rw [h]

theorem keep_key_of_existing {db : DB} (hinv : DBInv db) {ex : SuiviRow}
    (hmem : ex ∈ db.suivi_quotidien) (u : UpdateSuiviQuotidien)
    (hid : u.id = ex.id) (hsid : u.semaine_id = ex.semaine_id) (hag : u.age = ex.age) :
    ∀ r ∈ db.suivi_quotidien, r.id = u.id → r.semaine_id = u.semaine_id ∧ r.age = u.age := by
  intro r hr hrid
  have hre : r = ex :=
    eq_of_pairwise_key (fun q : SuiviRow => q.id) hinv.suivi_ids hr hmem
      (by show r.id = ex.id; rw [hrid, hid])
  rw [hre, hsid, hag]
  exact ⟨rfl, rfl⟩

/-- An `UPDATE` whose written row is already stored verbatim passes every
check and rewrites the store to itself. -/
theorem repoUpdate_again (st : DB) (u : UpdateSuiviQuotidien)
    (hinv : DBInv st)
    (hsem : semaineExists st u.semaine_id = true)
    (hw : rowOfUpdate u ∈ st.suivi_quotidien) :
    suiviRepoUpdate st u = (st, .ok (rowOfUpdate u)) := by
  have h2 : st.suivi_quotidien.any (fun r => r.id == u.id) = true := any_id_of_mem hw
  have h3 : 0 < u.age := hinv.suivi_age_pos _ hw
  have h4 : st.suivi_quotidien.any (fun r =>
      r.id != u.id && r.semaine_id == u.semaine_id && r.age == u.age) = false :=
    unique_key_check hinv hw
  have h5 : danglingSoin st u.soins_id = false := hinv.suivi_soins_fk _ hw
  rw [suiviRepoUpdate_of_checks st u hsem h2 h3 h4 h5]
  have hrepl : st.suivi_quotidien.map (fun r => if r.id == u.id then rowOfUpdate u else r)
      = st.suivi_quotidien := replace_self hinv.suivi_ids hw
  rw [hrepl]

/-- Re-upserting `deces_par_jour` with the value already stored is a no-op. -/
theorem upsertExisting_noop_deces (st : DB) (bid : Int) (value : String)
    (u : UpdateSuiviQuotidien) (hinv : DBInv st)
    (hfind : findSuiviById st u.id = some (rowOfUpdate u))
    (hsem : semaineExists st u.semaine_id = true)
    (hu : u.deces_par_jour = parseI32 value) :
    upsertExisting st bid u.id "deces_par_jour" value = (st, .ok (rowOfUpdate u)) := by
  rw [upsertExisting_deces]
  simp only [hfind]
  have hu2 : ({ updateBaseOf u.id (rowOfUpdate u) with deces_par_jour := parseI32 value }) = u := by
    rw [updateBaseOf_rowOfUpdate, ← hu]
  rw [hu2]
  exact repoUpdate_again st u hinv hsem (List.mem_of_find?_eq_some hfind)

theorem upsertExisting_noop_quantite (st : DB) (bid : Int) (value : String)
    (u : UpdateSuiviQuotidien) (hinv : DBInv st)
    (hfind : findSuiviById st u.id = some (rowOfUpdate u))
    (hsem : semaineExists st u.semaine_id = true)
    (hu : u.soins_quantite = (if value = "" then none else some value)) :
    upsertExisting st bid u.id "soins_quantite" value = (st, .ok (rowOfUpdate u)) := by
  rw [upsertExisting_quantite]
  simp only [hfind]
  have hu2 : ({ updateBaseOf u.id (rowOfUpdate u) with
      soins_quantite := if value = "" then none else some value }) = u := by
    rw [updateBaseOf_rowOfUpdate, ← hu]
  rw [hu2]
  exact repoUpdate_again st u hinv hsem (List.mem_of_find?_eq_some hfind)

theorem upsertExisting_noop_analyses (st : DB) (bid : Int) (value : String)
    (u : UpdateSuiviQuotidien) (hinv : DBInv st)
    (hfind : findSuiviById st u.id = some (rowOfUpdate u))
    (hsem : semaineExists st u.semaine_id = true)
    (hu : u.analyses = (if value = "" then none else some value)) :
    upsertExisting st bid u.id "analyses" value = (st, .ok (rowOfUpdate u)) := by
  rw [upsertExisting_analyses]
  simp only [hfind]
  have hu2 : ({ updateBaseOf u.id (rowOfUpdate u) with
      analyses := if value = "" then none else some value }) = u := by
    rw [updateBaseOf_rowOfUpdate, ← hu]
  rw [hu2]
  exact repoUpdate_again st u hinv hsem (List.mem_of_find?_eq_some hfind)

theorem upsertExisting_noop_remarques (st : DB) (bid : Int) (value : String)
    (u : UpdateSuiviQuotidien) (hinv : DBInv st)
    (hfind : findSuiviById st u.id = some (rowOfUpdate u))
    (hsem : semaineExists st u.semaine_id = true)
    (hu : u.remarques = (if value = "" then none else some value)) :
    upsertExisting st bid u.id "remarques" value = (st, .ok (rowOfUpdate u)) := by
  rw [upsertExisting_remarques]
  simp only [hfind]
  have hu2 : ({ updateBaseOf u.id (rowOfUpdate u) with
      remarques := if value = "" then none else some value }) = u := by
    rw [updateBaseOf_rowOfUpdate, ← hu]
  rw [hu2]
  exact repoUpdate_again st u hinv hsem (List.mem_of_find?_eq_some hfind)

theorem upsertExisting_noop_soins (st : DB) (bid : Int) (value : String)
    (u : UpdateSuiviQuotidien) (hinv : DBInv st)
    (hfind : findSuiviById st u.id = some (rowOfUpdate u))
    (hsem : semaineExists st u.semaine_id = true)
    (hbr : (value = "" ∧ u.soins_id = none)
      ∨ (value ≠ "" ∧ ∃ sid, parseI64 value = some sid ∧ soinExists st sid = true ∧ u.soins_id = some sid)
      ∨ (value ≠ "" ∧ parseI64 value = none ∧ u.soins_id = none)) :
    upsertExisting st bid u.id "soins_id" value = (st, .ok (rowOfUpdate u)) := by
  rw [upsertExisting_soins]
  simp only [hfind]
  rcases hbr with ⟨hv, hu⟩ | ⟨hv, sid, hp, hex, hu⟩ | ⟨hv, hp, hu⟩
  · rw [if_pos hv]
    have hu2 : ({ updateBaseOf u.id (rowOfUpdate u) with soins_id := none }) = u := by
      rw [updateBaseOf_rowOfUpdate, ← hu]
    rw [hu2]
    exact repoUpdate_again st u hinv hsem (List.mem_of_find?_eq_some hfind)
  · rw [if_neg hv]
    simp only [hp]
    rw [if_pos hex]
    have hu2 : ({ updateBaseOf u.id (rowOfUpdate u) with soins_id := some sid }) = u := by
      rw [updateBaseOf_rowOfUpdate, ← hu]
    rw [hu2]
    exact repoUpdate_again st u hinv hsem (List.mem_of_find?_eq_some hfind)
  · rw [if_neg hv]
    simp only [hp]
    have hu2 : ({ updateBaseOf u.id (rowOfUpdate u) with soins_id := none }) = u := by
      rw [updateBaseOf_rowOfUpdate, ← hu]
    rw [hu2]
    exact repoUpdate_again st u hinv hsem (List.mem_of_find?_eq_some hfind)

/-- Re-upserting the consumption field computes a zero delta (the stored
value now equals the parsed value), skips the ledger statement, and
rewrites the row to itself. -/
theorem upsertExisting_noop_alim (st : DB) (bid : Int) (value : String)
    (u : UpdateSuiviQuotidien) (hinv : DBInv st)
    (hfind : findSuiviById st u.id = some (rowOfUpdate u))
    (hsem : semaineExists st u.semaine_id = true)
    (hu : u.alimentation_par_jour = (if value = "" then none else some ((parseF64 value).getD 0))) :
    upsertExisting st bid u.id "alimentation_par_jour" value = (st, .ok (rowOfUpdate u)) := by
  rw [upsertExisting_alim]
  simp only [hfind]
  have hz : ratMul (ratSub ((parseF64 value).getD 0)
      ((rowOfUpdate u).alimentation_par_jour.getD 0)) 50 = 0 := by
    show ratMul (ratSub ((parseF64 value).getD 0) (u.alimentation_par_jour.getD 0)) 50 = 0
    by_cases hv : value = ""
    · rw [hu, if_pos hv, hv]
      decide
    · rw [hu, if_neg hv]
      exact ratMul_ratSub_self _ 50
  rw [hz]
  rw [if_neg (show ¬ (0 : Rat) ≠ 0 from fun hc => hc rfl)]
  have hu2 : ({ updateBaseOf u.id (rowOfUpdate u) with
      alimentation_par_jour := if value = "" then none else some ((parseF64 value).getD 0) }) = u := by
    rw [updateBaseOf_rowOfUpdate, ← hu]
  rw [hu2]
  exact repoUpdate_again st u hinv hsem (List.mem_of_find?_eq_some hfind)


/-- After a successful repository `UPDATE` of the day row at `(sid, ag)`,
the replayed command resolves the same semaine and batiment and finds the
freshly written row, both by natural key and by id. -/
theorem second_call_facts (db dbx : DB) (sid ag : Int) {s : SemaineRow} {b : BatimentRow}
    (u : UpdateSuiviQuotidien) {ex : SuiviRow}
    (hinv : DBInv db)
    (hsem : findSemaine db sid = some s)
    (hbat : findBatiment db s.batiment_id = some b)
    (hkey : findSuiviByKey db sid ag = some ex)
    (hid : u.id = ex.id) (hsid : u.semaine_id = sid) (hag : u.age = ag)
    (hsemx : dbx.semaines = db.semaines) (hbatx : dbx.batiments = db.batiments)
    (hsuix : dbx.suivi_quotidien = db.suivi_quotidien) :
    findSemaine { dbx with suivi_quotidien := dbx.suivi_quotidien.map (fun r =>
        if r.id == u.id then rowOfUpdate u else r) } sid = some s ∧
    findBatiment { dbx with suivi_quotidien := dbx.suivi_quotidien.map (fun r =>
        if r.id == u.id then rowOfUpdate u else r) } s.batiment_id = some b ∧
    findSuiviByKey { dbx with suivi_quotidien := dbx.suivi_quotidien.map (fun r =>
        if r.id == u.id then rowOfUpdate u else r) } sid ag = some (rowOfUpdate u) ∧
    findSuiviById { dbx with suivi_quotidien := dbx.suivi_quotidien.map (fun r =>
        if r.id == u.id then rowOfUpdate u else r) } u.id = some (rowOfUpdate u) ∧
    semaineExists { dbx with suivi_quotidien := dbx.suivi_quotidien.map (fun r =>
        if r.id == u.id then rowOfUpdate u else r) } u.semaine_id = true := by
  refine ⟨?_, ?_, ?_, ?_, ?_⟩
  · show findSemaine dbx sid = some s
    unfold findSemaine at hsem ⊢
    rw [hsemx]
    exact hsem
  · show findBatiment dbx s.batiment_id = some b
    unfold findBatiment at hbat ⊢
    rw [hbatx]
    exact hbat
  · show (dbx.suivi_quotidien.map (fun r => if r.id == u.id then rowOfUpdate u else r)).find?
        (fun r => r.semaine_id == sid && r.age == ag) = some (rowOfUpdate u)
    rw [hsuix, hid]
    exact find?_replace hinv.suivi_ids hkey (by
      show (u.semaine_id == sid && u.age == ag) = true
      rw [hsid, hag]
      simp)
  · show (dbx.suivi_quotidien.map (fun r => if r.id == u.id then rowOfUpdate u else r)).find?
        (fun r => r.id == u.id) = some (rowOfUpdate u)
    rw [hsuix, hid]
    exact find?_replace hinv.suivi_ids
      (findSuiviById_self hinv.suivi_ids (findSuiviByKey_props hkey).1) (by
      show (u.id == ex.id) = true
      rw [hid]
      simp)
  · show semaineExists dbx u.semaine_id = true
    unfold semaineExists
    rw [hsemx, hsid]
    exact semaineExists_of_find hsem

/-- After a successful repository `INSERT` of the day row at `(sid, ag)`,
the replayed command resolves the same semaine and batiment and finds the
freshly inserted row, both by natural key and by id. -/
theorem second_call_facts_create (db dbx : DB) (sid ag : Int) {s : SemaineRow} {b : BatimentRow}
    (c : CreateSuiviQuotidien)
    (hinv : DBInv db)
    (hsem : findSemaine db sid = some s)
    (hbat : findBatiment db s.batiment_id = some b)
    (hkey : findSuiviByKey db sid ag = none)
    (hcsid : c.semaine_id = sid) (hcag : c.age = ag)
    (hsemx : dbx.semaines = db.semaines) (hbatx : dbx.batiments = db.batiments)
    (hsuix : dbx.suivi_quotidien = db.suivi_quotidien)
    (hnx : dbx.next_suivi_id = db.next_suivi_id) :
    findSemaine { dbx with suivi_quotidien := dbx.suivi_quotidien ++ [rowOfCreate dbx c],
                           next_suivi_id := dbx.next_suivi_id + 1 } sid = some s ∧
    findBatiment { dbx with suivi_quotidien := dbx.suivi_quotidien ++ [rowOfCreate dbx c],
                            next_suivi_id := dbx.next_suivi_id + 1 } s.batiment_id = some b ∧
    findSuiviByKey { dbx with suivi_quotidien := dbx.suivi_quotidien ++ [rowOfCreate dbx c],
                              next_suivi_id := dbx.next_suivi_id + 1 } sid ag = some (rowOfCreate dbx c) ∧
    findSuiviById { dbx with suivi_quotidien := dbx.suivi_quotidien ++ [rowOfCreate dbx c],
                             next_suivi_id := dbx.next_suivi_id + 1 } (rowOfCreate dbx c).id = some (rowOfCreate dbx c) ∧
    semaineExists { dbx with suivi_quotidien := dbx.suivi_quotidien ++ [rowOfCreate dbx c],
                             next_suivi_id := dbx.next_suivi_id + 1 } c.semaine_id = true := by
  refine ⟨?_, ?_, ?_, ?_, ?_⟩
  · show findSemaine dbx sid = some s
    unfold findSemaine at hsem ⊢
    rw [hsemx]
    exact hsem
  · show findBatiment dbx s.batiment_id = some b
    unfold findBatiment at hbat ⊢
    rw [hbatx]
    exact hbat
  · show ((dbx.suivi_quotidien ++ [rowOfCreate dbx c]).find?
        (fun r => r.semaine_id == sid && r.age == ag)) = some (rowOfCreate dbx c)
    rw [hsuix, find?_append_none hkey]
    rw [List.find?_cons_of_pos _ (by
      show (c.semaine_id == sid && c.age == ag) = true
      rw [hcsid, hcag]
      simp)]
  · show ((dbx.suivi_quotidien ++ [rowOfCreate dbx c]).find?
        (fun r => r.id == (rowOfCreate dbx c).id)) = some (rowOfCreate dbx c)
    have hnone : db.suivi_quotidien.find? (fun r => r.id == (rowOfCreate dbx c).id) = none := by
      refine List.find?_eq_none.mpr ?_
      intro x hx
      have hlt := hinv.suivi_id_lt x hx
      show ¬ (x.id == dbx.next_suivi_id) = true
      rw [hnx]
      simp only [beq_iff_eq]
      omega
    rw [hsuix, find?_append_none hnone]
    rw [List.find?_cons_of_pos _ (by simp)]
  · show semaineExists dbx c.semaine_id = true
    unfold semaineExists
    rw [hsemx, hcsid]
    exact semaineExists_of_find hsem

/-- The repository `UPDATE` issued by the update branch passes every check
when the written row keeps the key of the stored row `ex` (the state `dbx`
it runs on may differ from `db` only outside the checked tables). -/
theorem repoUpdate_first (db dbx : DB) (u : UpdateSuiviQuotidien)
    {ex : SuiviRow} (hmem : ex ∈ db.suivi_quotidien)
    (hinvd : DBInv db)
    (hsemE : semaineExists db ex.semaine_id = true)
    (hid : u.id = ex.id) (hsid : u.semaine_id = ex.semaine_id) (hag : u.age = ex.age)
    (hfk : danglingSoin db u.soins_id = false)
    (hsemx : dbx.semaines = db.semaines) (hsuix : dbx.suivi_quotidien = db.suivi_quotidien)
    (hsoinx : dbx.soins = db.soins) :
    suiviRepoUpdate dbx u =
      ({ dbx with suivi_quotidien := dbx.suivi_quotidien.map (fun r =>
           if r.id == u.id then rowOfUpdate u else r) }, .ok (rowOfUpdate u)) := by
  refine suiviRepoUpdate_of_checks dbx u ?_ ?_ ?_ ?_ ?_
  · unfold semaineExists at hsemE ⊢
    rw [hsemx, hsid]
    exact hsemE
  · rw [hsuix, hid]
    exact any_id_of_mem hmem
  · rw [hag]
    exact hinvd.suivi_age_pos ex hmem
  · rw [hsuix, hid, hsid, hag]
    exact unique_key_check hinvd hmem
  · rw [danglingSoin_congr dbx db hsoinx]
    exact hfk

/-- The repository `INSERT` issued by the create branch passes every check
when the address is free and the age positive. -/
theorem repoCreate_first (db dbx : DB) (c : CreateSuiviQuotidien)
    (hsemE : semaineExists db c.semaine_id = true)
    (hag : 0 < c.age)
    (hkey : findSuiviByKey db c.semaine_id c.age = none)
    (hfk : danglingSoin db c.soins_id = false)
    (hsemx : dbx.semaines = db.semaines) (hsuix : dbx.suivi_quotidien = db.suivi_quotidien)
    (hsoinx : dbx.soins = db.soins) :
    suiviRepoCreate dbx c =
      ({ dbx with suivi_quotidien := dbx.suivi_quotidien ++ [rowOfCreate dbx c],
                   next_suivi_id := dbx.next_suivi_id + 1 }, .ok (rowOfCreate dbx c)) := by
  refine suiviRepoCreate_of_checks dbx c ?_ hag ?_ ?_
  · unfold semaineExists at hsemE ⊢
    rw [hsemx]
    exact hsemE
  · rw [hsuix]
    exact find?_eq_none_any hkey
  · rw [danglingSoin_congr dbx db hsoinx]
    exact hfk


/-- Replaying the command against the state written by a successful
update branch reproduces that state and result, provided re-dispatching
on the written row is a no-op (`hnoop`). -/
theorem upsert_second_existing (db dbx : DB) (sid ag : Int) (field value : String)
    {s : SemaineRow} {b : BatimentRow} {ex : SuiviRow}
    (hinv : DBInv db)
    (hsem : findSemaine db sid = some s)
    (hbat : findBatiment db s.batiment_id = some b)
    (hkey : findSuiviByKey db sid ag = some ex)
    (u : UpdateSuiviQuotidien)
    (hid : u.id = ex.id) (hsid : u.semaine_id = sid) (hagu : u.age = ag)
    (hsemx : dbx.semaines = db.semaines) (hbatx : dbx.batiments = db.batiments)
    (hsuix : dbx.suivi_quotidien = db.suivi_quotidien) (hsoinx : dbx.soins = db.soins)
    (hinvx : DBInv dbx)
    (hfku : danglingSoin db u.soins_id = false)
    (hnoop : ∀ st : DB, DBInv st →
      findSuiviById st u.id = some (rowOfUpdate u) →
      semaineExists st u.semaine_id = true →
      st.soins = db.soins →
      upsertExisting st b.bande_id u.id field value = (st, .ok (rowOfUpdate u))) :
    upsert_suivi_quotidien_field
        { dbx with suivi_quotidien := dbx.suivi_quotidien.map (fun r =>
            if r.id == u.id then rowOfUpdate u else r) } sid ag field value
      = ({ dbx with suivi_quotidien := dbx.suivi_quotidien.map (fun r =>
            if r.id == u.id then rowOfUpdate u else r) }, .ok (rowOfUpdate u)) := by
  obtain ⟨f1, f2, f3, f4, f5⟩ :=
    second_call_facts db dbx sid ag u hinv hsem hbat hkey hid hsid hagu hsemx hbatx hsuix
  have hmem : ex ∈ db.suivi_quotidien := (findSuiviByKey_props hkey).1
  have hxsid : ex.semaine_id = sid := (findSuiviByKey_props hkey).2.1
  have hxag : ex.age = ag := (findSuiviByKey_props hkey).2.2
  have hinv1 : DBInv { dbx with suivi_quotidien := dbx.suivi_quotidien.map (fun r =>
      if r.id == u.id then rowOfUpdate u else r) } := by
    refine inv_replaceRow dbx u hinvx ?_ ?_
    · intro r hr hrid
      rw [hsuix] at hr
      exact keep_key_of_existing hinv hmem u hid (hsid.trans hxsid.symm)
        (hagu.trans hxag.symm) r hr hrid
    · rw [danglingSoin_congr dbx db hsoinx]
      exact hfku
  rw [upsert_dispatch _ sid ag field value f1 f2]
  simp only [f3]
  exact hnoop _ hinv1 f4 f5 hsoinx

/-- The update half of idempotence: with the natural key occupied, the
second identical call finds the row the first one wrote and rewrites it
verbatim, with a zero ledger delta for the consumption field. -/
theorem upsert_idem_existing (db : DB) (sid ag : Int) (field value : String)
    {s : SemaineRow} {b : BatimentRow} {ex : SuiviRow}
    (hinv : DBInv db)
    (hsem : findSemaine db sid = some s)
    (hbat : findBatiment db s.batiment_id = some b)
    (hkey : findSuiviByKey db sid ag = some ex) :
    upsert_suivi_quotidien_field (upsert_suivi_quotidien_field db sid ag field value).1
        sid ag field value
      = upsert_suivi_quotidien_field db sid ag field value := by
  have hmem : ex ∈ db.suivi_quotidien := (findSuiviByKey_props hkey).1
  have hxsid : ex.semaine_id = sid := (findSuiviByKey_props hkey).2.1
  have hxag : ex.age = ag := (findSuiviByKey_props hkey).2.2
  have hcur : findSuiviById db ex.id = some ex := findSuiviById_self hinv.suivi_ids hmem
  have hsemE : semaineExists db ex.semaine_id = true := by
    rw [hxsid]
    exact semaineExists_of_find hsem
  by_cases hf1 : field = "deces_par_jour"
  · subst hf1
    obtain ⟨u, hu⟩ : ∃ u : UpdateSuiviQuotidien,
        u = { updateBaseOf ex.id ex with deces_par_jour := parseI32 value } := ⟨_, rfl⟩
    have hid : u.id = ex.id := by rw [hu]; rfl
    have hsid : u.semaine_id = sid := by rw [hu]; exact hxsid
    have hagu : u.age = ag := by rw [hu]; exact hxag
    have hfku : danglingSoin db u.soins_id = false := by
      rw [hu]
      exact hinv.suivi_soins_fk ex hmem
    have hE1 : upsert_suivi_quotidien_field db sid ag "deces_par_jour" value
        = ({ db with suivi_quotidien := db.suivi_quotidien.map (fun r =>
              if r.id == u.id then rowOfUpdate u else r) }, .ok (rowOfUpdate u)) := by
      rw [upsert_dispatch db sid ag _ value hsem hbat]
      simp only [hkey]
      rw [upsertExisting_deces]
      simp only [hcur]
      rw [← hu]
      exact repoUpdate_first db db u hmem hinv hsemE hid (hsid.trans hxsid.symm)
        (hagu.trans hxag.symm) hfku rfl rfl rfl
    rw [hE1]
    exact upsert_second_existing db db sid ag "deces_par_jour" value hinv hsem hbat hkey u
      hid hsid hagu rfl rfl rfl rfl hinv hfku
      (fun st hinvst hfind hsemst _hs =>
        upsertExisting_noop_deces st b.bande_id value u hinvst hfind hsemst (by rw [hu]))
  by_cases hf2 : field = "alimentation_par_jour"
  · subst hf2
    obtain ⟨dbx, hdbx⟩ : ∃ dbx : DB, dbx =
        (if ratMul (ratSub ((parseF64 value).getD 0) (ex.alimentation_par_jour.getD 0)) 50 ≠ 0
         then updateBandeContour db b.bande_id
           (ratMul (ratSub ((parseF64 value).getD 0) (ex.alimentation_par_jour.getD 0)) 50)
         else db) := ⟨_, rfl⟩
    obtain ⟨u, hu⟩ : ∃ u : UpdateSuiviQuotidien,
        u = { updateBaseOf ex.id ex with
              alimentation_par_jour := if value = "" then none else some ((parseF64 value).getD 0) } :=
      ⟨_, rfl⟩
    have hsemx : dbx.semaines = db.semaines := by rw [hdbx]; split <;> rfl
    have hbatx : dbx.batiments = db.batiments := by rw [hdbx]; split <;> rfl
    have hsuix : dbx.suivi_quotidien = db.suivi_quotidien := by rw [hdbx]; split <;> rfl
    have hsoinx : dbx.soins = db.soins := by rw [hdbx]; split <;> rfl
    have hinvx : DBInv dbx := by
      rw [hdbx]
      split
      · exact inv_updateBandeContour db b.bande_id _ hinv
      · exact hinv
    have hid : u.id = ex.id := by rw [hu]; rfl
    have hsid : u.semaine_id = sid := by rw [hu]; exact hxsid
    have hagu : u.age = ag := by rw [hu]; exact hxag
    have hfku : danglingSoin db u.soins_id = false := by
      rw [hu]
      exact hinv.suivi_soins_fk ex hmem
    have hE1 : upsert_suivi_quotidien_field db sid ag "alimentation_par_jour" value
        = ({ dbx with suivi_quotidien := dbx.suivi_quotidien.map (fun r =>
              if r.id == u.id then rowOfUpdate u else r) }, .ok (rowOfUpdate u)) := by
      rw [upsert_dispatch db sid ag _ value hsem hbat]
      simp only [hkey]
      rw [upsertExisting_alim]
      simp only [hcur]
      rw [← hdbx, ← hu]
      exact repoUpdate_first db dbx u hmem hinv hsemE hid (hsid.trans hxsid.symm)
        (hagu.trans hxag.symm) hfku hsemx hsuix hsoinx
    rw [hE1]
    exact upsert_second_existing db dbx sid ag "alimentation_par_jour" value hinv hsem hbat hkey u
      hid hsid hagu hsemx hbatx hsuix hsoinx hinvx hfku
      (fun st hinvst hfind hsemst _hs =>
        upsertExisting_noop_alim st b.bande_id value u hinvst hfind hsemst (by rw [hu]))
  by_cases hf3 : field = "soins_id"
  · subst hf3
    by_cases hv : value = ""
    · obtain ⟨u, hu⟩ : ∃ u : UpdateSuiviQuotidien,
          u = { updateBaseOf ex.id ex with soins_id := (none : Option Int) } := ⟨_, rfl⟩
      have hid : u.id = ex.id := by rw [hu]; rfl
      have hsid : u.semaine_id = sid := by rw [hu]; exact hxsid
      have hagu : u.age = ag := by rw [hu]; exact hxag
      have hfku : danglingSoin db u.soins_id = false := by rw [hu]; rfl
      have hE1 : upsert_suivi_quotidien_field db sid ag "soins_id" value
          = ({ db with suivi_quotidien := db.suivi_quotidien.map (fun r =>
                if r.id == u.id then rowOfUpdate u else r) }, .ok (rowOfUpdate u)) := by
        rw [upsert_dispatch db sid ag _ value hsem hbat]
        simp only [hkey]
        rw [upsertExisting_soins]
        simp only [hcur]
        rw [if_pos hv]
        rw [← hu]
        exact repoUpdate_first db db u hmem hinv hsemE hid (hsid.trans hxsid.symm)
          (hagu.trans hxag.symm) hfku rfl rfl rfl
      rw [hE1]
      exact upsert_second_existing db db sid ag "soins_id" value hinv hsem hbat hkey u
        hid hsid hagu rfl rfl rfl rfl hinv hfku
        (fun st hinvst hfind hsemst _hs =>
          upsertExisting_noop_soins st b.bande_id value u hinvst hfind hsemst
            (.inl ⟨hv, by rw [hu]⟩))
    · cases hp : parseI64 value with
      | some soinIdv =>
        by_cases hexs : soinExists db soinIdv = true
        · obtain ⟨u, hu⟩ : ∃ u : UpdateSuiviQuotidien,
              u = { updateBaseOf ex.id ex with soins_id := some soinIdv } := ⟨_, rfl⟩
          have hid : u.id = ex.id := by rw [hu]; rfl
          have hsid : u.semaine_id = sid := by rw [hu]; exact hxsid
          have hagu : u.age = ag := by rw [hu]; exact hxag
          have hfku : danglingSoin db u.soins_id = false := by
            rw [hu]
            show (!soinExists db soinIdv) = false
            rw [hexs]
            rfl
          have hE1 : upsert_suivi_quotidien_field db sid ag "soins_id" value
              = ({ db with suivi_quotidien := db.suivi_quotidien.map (fun r =>
                    if r.id == u.id then rowOfUpdate u else r) }, .ok (rowOfUpdate u)) := by
            rw [upsert_dispatch db sid ag _ value hsem hbat]
            simp only [hkey]
            rw [upsertExisting_soins]
            simp only [hcur]
            rw [if_neg hv]
            simp only [hp]
            rw [if_pos hexs]
            rw [← hu]
            exact repoUpdate_first db db u hmem hinv hsemE hid (hsid.trans hxsid.symm)
              (hagu.trans hxag.symm) hfku rfl rfl rfl
          rw [hE1]
          exact upsert_second_existing db db sid ag "soins_id" value hinv hsem hbat hkey u
            hid hsid hagu rfl rfl rfl rfl hinv hfku
            (fun st hinvst hfind hsemst hs =>
              upsertExisting_noop_soins st b.bande_id value u hinvst hfind hsemst
                (.inr (.inl ⟨hv, soinIdv, hp, by
                  show st.soins.any (fun q => q.id == soinIdv) = true
                  rw [hs]
                  exact hexs, by rw [hu]⟩)))
        · have hE : upsert_suivi_quotidien_field db sid ag "soins_id" value
              = (db, .error (.soinNotFound soinIdv)) := by
            rw [upsert_dispatch db sid ag _ value hsem hbat]
            simp only [hkey]
            rw [upsertExisting_soins]
            simp only [hcur]
            rw [if_neg hv]
            simp only [hp]
            rw [if_neg hexs]
          rw [hE]
          exact hE
      | none =>
        obtain ⟨u, hu⟩ : ∃ u : UpdateSuiviQuotidien,
            u = { updateBaseOf ex.id ex with soins_id := (none : Option Int) } := ⟨_, rfl⟩
        have hid : u.id = ex.id := by rw [hu]; rfl
        have hsid : u.semaine_id = sid := by rw [hu]; exact hxsid
        have hagu : u.age = ag := by rw [hu]; exact hxag
        have hfku : danglingSoin db u.soins_id = false := by rw [hu]; rfl
        have hE1 : upsert_suivi_quotidien_field db sid ag "soins_id" value
            = ({ db with suivi_quotidien := db.suivi_quotidien.map (fun r =>
                  if r.id == u.id then rowOfUpdate u else r) }, .ok (rowOfUpdate u)) := by
          rw [upsert_dispatch db sid ag _ value hsem hbat]
          simp only [hkey]
          rw [upsertExisting_soins]
          simp only [hcur]
          rw [if_neg hv]
          simp only [hp]
          rw [← hu]
          exact repoUpdate_first db db u hmem hinv hsemE hid (hsid.trans hxsid.symm)
            (hagu.trans hxag.symm) hfku rfl rfl rfl
        rw [hE1]
        exact upsert_second_existing db db sid ag "soins_id" value hinv hsem hbat hkey u
          hid hsid hagu rfl rfl rfl rfl hinv hfku
          (fun st hinvst hfind hsemst _hs =>
            upsertExisting_noop_soins st b.bande_id value u hinvst hfind hsemst
              (.inr (.inr ⟨hv, hp, by rw [hu]⟩)))
  by_cases hf4 : field = "soins_quantite"
  · subst hf4
    obtain ⟨u, hu⟩ : ∃ u : UpdateSuiviQuotidien,
        u = { updateBaseOf ex.id ex with
              soins_quantite := if value = "" then none else some value } := ⟨_, rfl⟩
    have hid : u.id = ex.id := by rw [hu]; rfl
    have hsid : u.semaine_id = sid := by rw [hu]; exact hxsid
    have hagu : u.age = ag := by rw [hu]; exact hxag
    have hfku : danglingSoin db u.soins_id = false := by
      rw [hu]
      exact hinv.suivi_soins_fk ex hmem
    have hE1 : upsert_suivi_quotidien_field db sid ag "soins_quantite" value
        = ({ db with suivi_quotidien := db.suivi_quotidien.map (fun r =>
              if r.id == u.id then rowOfUpdate u else r) }, .ok (rowOfUpdate u)) := by
      rw [upsert_dispatch db sid ag _ value hsem hbat]
      simp only [hkey]
      rw [upsertExisting_quantite]
      simp only [hcur]
      rw [← hu]
      exact repoUpdate_first db db u hmem hinv hsemE hid (hsid.trans hxsid.symm)
        (hagu.trans hxag.symm) hfku rfl rfl rfl
    rw [hE1]
    exact upsert_second_existing db db sid ag "soins_quantite" value hinv hsem hbat hkey u
      hid hsid hagu rfl rfl rfl rfl hinv hfku
      (fun st hinvst hfind hsemst _hs =>
        upsertExisting_noop_quantite st b.bande_id value u hinvst hfind hsemst (by rw [hu]))
  by_cases hf5 : field = "analyses"
  · subst hf5
    obtain ⟨u, hu⟩ : ∃ u : UpdateSuiviQuotidien,
        u = { updateBaseOf ex.id ex with
              analyses := if value = "" then none else some value } := ⟨_, rfl⟩
    have hid : u.id = ex.id := by rw [hu]; rfl
    have hsid : u.semaine_id = sid := by rw [hu]; exact hxsid
    have hagu : u.age = ag := by rw [hu]; exact hxag
    have hfku : danglingSoin db u.soins_id = false := by
      rw [hu]
      exact hinv.suivi_soins_fk ex hmem
    have hE1 : upsert_suivi_quotidien_field db sid ag "analyses" value
        = ({ db with suivi_quotidien := db.suivi_quotidien.map (fun r =>
              if r.id == u.id then rowOfUpdate u else r) }, .ok (rowOfUpdate u)) := by
      rw [upsert_dispatch db sid ag _ value hsem hbat]
      simp only [hkey]
      rw [upsertExisting_analyses]
      simp only [hcur]
      rw [← hu]
      exact repoUpdate_first db db u hmem hinv hsemE hid (hsid.trans hxsid.symm)
        (hagu.trans hxag.symm) hfku rfl rfl rfl
    rw [hE1]
    exact upsert_second_existing db db sid ag "analyses" value hinv hsem hbat hkey u
      hid hsid hagu rfl rfl rfl rfl hinv hfku
      (fun st hinvst hfind hsemst _hs =>
        upsertExisting_noop_analyses st b.bande_id value u hinvst hfind hsemst (by rw [hu]))
  by_cases hf6 : field = "remarques"
  · subst hf6
    obtain ⟨u, hu⟩ : ∃ u : UpdateSuiviQuotidien,
        u = { updateBaseOf ex.id ex with
              remarques := if value = "" then none else some value } := ⟨_, rfl⟩
    have hid : u.id = ex.id := by rw [hu]; rfl
    have hsid : u.semaine_id = sid := by rw [hu]; exact hxsid
    have hagu : u.age = ag := by rw [hu]; exact hxag
    have hfku : danglingSoin db u.soins_id = false := by
      rw [hu]
      exact hinv.suivi_soins_fk ex hmem
    have hE1 : upsert_suivi_quotidien_field db sid ag "remarques" value
        = ({ db with suivi_quotidien := db.suivi_quotidien.map (fun r =>
              if r.id == u.id then rowOfUpdate u else r) }, .ok (rowOfUpdate u)) := by
      rw [upsert_dispatch db sid ag _ value hsem hbat]
      simp only [hkey]
      rw [upsertExisting_remarques]
      simp only [hcur]
      rw [← hu]
      exact repoUpdate_first db db u hmem hinv hsemE hid (hsid.trans hxsid.symm)
        (hagu.trans hxag.symm) hfku rfl rfl rfl
    rw [hE1]
    exact upsert_second_existing db db sid ag "remarques" value hinv hsem hbat hkey u
      hid hsid hagu rfl rfl rfl rfl hinv hfku
      (fun st hinvst hfind hsemst _hs =>
        upsertExisting_noop_remarques st b.bande_id value u hinvst hfind hsemst (by rw [hu]))
  have hE : upsert_suivi_quotidien_field db sid ag field value
      = (db, .error (.unknownField field)) := by
    rw [upsert_dispatch db sid ag field value hsem hbat]
    simp only [hkey]
    rw [upsertExisting_unknown db b.bande_id ex.id field value hf1 hf2 hf3 hf4 hf5 hf6]
    simp only [hcur]
  rw [hE]
  exact hE


/-- Replaying the command against the state written by a successful
create branch reproduces that state and result: the second call finds the
inserted row by natural key and takes the update branch as a no-op. -/
theorem upsert_second_create (db dbx : DB) (sid ag : Int) (field value : String)
    {s : SemaineRow} {b : BatimentRow}
    (c : CreateSuiviQuotidien)
    (hinv : DBInv db)
    (hsem : findSemaine db sid = some s)
    (hbat : findBatiment db s.batiment_id = some b)
    (hkey : findSuiviByKey db sid ag = none)
    (hcsid : c.semaine_id = sid) (hcag : c.age = ag) (hagpos : 0 < c.age)
    (hsemx : dbx.semaines = db.semaines) (hbatx : dbx.batiments = db.batiments)
    (hsuix : dbx.suivi_quotidien = db.suivi_quotidien) (hsoinx : dbx.soins = db.soins)
    (hnx : dbx.next_suivi_id = db.next_suivi_id)
    (hinvx : DBInv dbx)
    (hfkc : danglingSoin db c.soins_id = false)
    (hnoop : ∀ st : DB, DBInv st →
      findSuiviById st (rowOfCreate dbx c).id = some (rowOfCreate dbx c) →
      semaineExists st c.semaine_id = true →
      st.soins = db.soins →
      upsertExisting st b.bande_id (rowOfCreate dbx c).id field value
        = (st, .ok (rowOfCreate dbx c))) :
    upsert_suivi_quotidien_field
        { dbx with suivi_quotidien := dbx.suivi_quotidien ++ [rowOfCreate dbx c],
                   next_suivi_id := dbx.next_suivi_id + 1 } sid ag field value
      = ({ dbx with suivi_quotidien := dbx.suivi_quotidien ++ [rowOfCreate dbx c],
                     next_suivi_id := dbx.next_suivi_id + 1 }, .ok (rowOfCreate dbx c)) := by
  obtain ⟨f1, f2, f3, f4, f5⟩ :=
    second_call_facts_create db dbx sid ag c hinv hsem hbat hkey hcsid hcag hsemx hbatx hsuix hnx
  have hinv1 : DBInv { dbx with suivi_quotidien := dbx.suivi_quotidien ++ [rowOfCreate dbx c],
                                next_suivi_id := dbx.next_suivi_id + 1 } := by
    refine inv_insertRow dbx c hinvx hagpos ?_ ?_
    · rw [hsuix, hcsid, hcag]
      exact find?_eq_none_any hkey
    · rw [danglingSoin_congr dbx db hsoinx]
      exact hfkc
  rw [upsert_dispatch _ sid ag field value f1 f2]
  simp only [f3]
  exact hnoop _ hinv1 f4 f5 hsoinx

/-- The create half of idempotence (positive age): the second identical
call finds the inserted row, computes a zero ledger delta for the
consumption field, and rewrites the row verbatim. -/
theorem upsert_idem_create (db : DB) (sid ag : Int) (field value : String)
    {s : SemaineRow} {b : BatimentRow}
    (hinv : DBInv db) (hage : 0 < ag)
    (hsem : findSemaine db sid = some s)
    (hbat : findBatiment db s.batiment_id = some b)
    (hkey : findSuiviByKey db sid ag = none) :
    upsert_suivi_quotidien_field (upsert_suivi_quotidien_field db sid ag field value).1
        sid ag field value
      = upsert_suivi_quotidien_field db sid ag field value := by
  by_cases hf1 : field = "deces_par_jour"
  · subst hf1
    have hE1 : upsert_suivi_quotidien_field db sid ag "deces_par_jour" value
        = ({ db with
              suivi_quotidien := db.suivi_quotidien ++
                [rowOfCreate db { createBaseOf sid ag with deces_par_jour := parseI32 value }],
              next_suivi_id := db.next_suivi_id + 1 },
           .ok (rowOfCreate db { createBaseOf sid ag with deces_par_jour := parseI32 value })) := by
      rw [upsert_dispatch db sid ag _ value hsem hbat]
      simp only [hkey]
      rw [upsertNew_deces]
      exact repoCreate_first db db _ (semaineExists_of_find hsem) hage hkey rfl rfl rfl rfl
    rw [hE1]
    exact upsert_second_create db db sid ag "deces_par_jour" value
      { createBaseOf sid ag with deces_par_jour := parseI32 value } hinv hsem hbat hkey
      rfl rfl hage rfl rfl rfl rfl rfl hinv rfl
      (fun st hinvst hfind hsemst _hs =>
        upsertExisting_noop_deces st b.bande_id value
          { updateBaseOf
              (rowOfCreate db { createBaseOf sid ag with deces_par_jour := parseI32 value }).id
              (rowOfCreate db { createBaseOf sid ag with deces_par_jour := parseI32 value }) with
            deces_par_jour := parseI32 value }
          hinvst hfind hsemst rfl)
  by_cases hf2 : field = "alimentation_par_jour"
  · subst hf2
    obtain ⟨dbx, hdbx⟩ : ∃ dbx : DB, dbx =
        (if 0 < (parseF64 value).getD 0
         then updateBandeContour db b.bande_id (ratMul ((parseF64 value).getD 0) 50)
         else db) := ⟨_, rfl⟩
    have hsemx : dbx.semaines = db.semaines := by rw [hdbx]; split <;> rfl
    have hbatx : dbx.batiments = db.batiments := by rw [hdbx]; split <;> rfl
    have hsuix : dbx.suivi_quotidien = db.suivi_quotidien := by rw [hdbx]; split <;> rfl
    have hsoinx : dbx.soins = db.soins := by rw [hdbx]; split <;> rfl
    have hnx : dbx.next_suivi_id = db.next_suivi_id := by rw [hdbx]; split <;> rfl
    have hinvx : DBInv dbx := by
      rw [hdbx]
      split
      · exact inv_updateBandeContour db b.bande_id _ hinv
      · exact hinv
    have hE1 : upsert_suivi_quotidien_field db sid ag "alimentation_par_jour" value
        = ({ dbx with
              suivi_quotidien := dbx.suivi_quotidien ++
                [rowOfCreate dbx { createBaseOf sid ag with alimentation_par_jour := if value = "" then none else some ((parseF64 value).getD 0) }],
              next_suivi_id := dbx.next_suivi_id + 1 },
           .ok (rowOfCreate dbx { createBaseOf sid ag with alimentation_par_jour := if value = "" then none else some ((parseF64 value).getD 0) })) := by
      rw [upsert_dispatch db sid ag _ value hsem hbat]
      simp only [hkey]
      rw [upsertNew_alim]
      simp only []
      rw [← hdbx]
      exact repoCreate_first db dbx _ (semaineExists_of_find hsem) hage hkey rfl hsemx hsuix hsoinx
    rw [hE1]
    exact upsert_second_create db dbx sid ag "alimentation_par_jour" value
      { createBaseOf sid ag with alimentation_par_jour :=
          if value = "" then none else some ((parseF64 value).getD 0) } hinv hsem hbat hkey
      rfl rfl hage hsemx hbatx hsuix hsoinx hnx hinvx rfl
      (fun st hinvst hfind hsemst _hs =>
        upsertExisting_noop_alim st b.bande_id value
          { updateBaseOf
              (rowOfCreate dbx { createBaseOf sid ag with alimentation_par_jour := if value = "" then none else some ((parseF64 value).getD 0) }).id
              (rowOfCreate dbx { createBaseOf sid ag with alimentation_par_jour := if value = "" then none else some ((parseF64 value).getD 0) }) with
            alimentation_par_jour := if value = "" then none else some ((parseF64 value).getD 0) }
          hinvst hfind hsemst rfl)
  by_cases hf3 : field = "soins_id"
  · subst hf3
    by_cases hv : value = ""
    · have hE1 : upsert_suivi_quotidien_field db sid ag "soins_id" value
          = ({ db with
                suivi_quotidien := db.suivi_quotidien ++
                  [rowOfCreate db { createBaseOf sid ag with soins_id := (none : Option Int) }],
                  next_suivi_id := db.next_suivi_id + 1 },
             .ok (rowOfCreate db { createBaseOf sid ag with soins_id := (none : Option Int) })) := by
        rw [upsert_dispatch db sid ag _ value hsem hbat]
        simp only [hkey]
        rw [upsertNew_soins, if_pos hv]
        exact repoCreate_first db db _ (semaineExists_of_find hsem) hage hkey rfl rfl rfl rfl
      rw [hE1]
      exact upsert_second_create db db sid ag "soins_id" value
        { createBaseOf sid ag with soins_id := (none : Option Int) } hinv hsem hbat hkey
        rfl rfl hage rfl rfl rfl rfl rfl hinv rfl
        (fun st hinvst hfind hsemst _hs =>
          upsertExisting_noop_soins st b.bande_id value
            { updateBaseOf
                (rowOfCreate db { createBaseOf sid ag with soins_id := (none : Option Int) }).id
                (rowOfCreate db { createBaseOf sid ag with soins_id := (none : Option Int) }) with
              soins_id := (none : Option Int) }
            hinvst hfind hsemst (.inl ⟨hv, rfl⟩))
    · cases hp : parseI64 value with
      | some soinIdv =>
        by_cases hexs : soinExists db soinIdv = true
        · have hE1 : upsert_suivi_quotidien_field db sid ag "soins_id" value
              = ({ db with
                  suivi_quotidien := db.suivi_quotidien ++
                    [rowOfCreate db { createBaseOf sid ag with soins_id := some soinIdv }],
                      next_suivi_id := db.next_suivi_id + 1 },
                 .ok (rowOfCreate db { createBaseOf sid ag with soins_id := some soinIdv })) := by
            rw [upsert_dispatch db sid ag _ value hsem hbat]
            simp only [hkey]
            rw [upsertNew_soins, if_neg hv]
            simp only [hp]
            rw [if_pos hexs]
            refine repoCreate_first db db _ (semaineExists_of_find hsem) hage hkey ?_ rfl rfl rfl
            show (!soinExists db soinIdv) = false
            rw [hexs]
            rfl
          rw [hE1]
          exact upsert_second_create db db sid ag "soins_id" value
            { createBaseOf sid ag with soins_id := some soinIdv } hinv hsem hbat hkey
            rfl rfl hage rfl rfl rfl rfl rfl hinv
            (by show (!soinExists db soinIdv) = false; rw [hexs]; rfl)
            (fun st hinvst hfind hsemst hs =>
              upsertExisting_noop_soins st b.bande_id value
                { updateBaseOf
                    (rowOfCreate db { createBaseOf sid ag with soins_id := some soinIdv }).id
                    (rowOfCreate db { createBaseOf sid ag with soins_id := some soinIdv }) with
                  soins_id := some soinIdv }
                hinvst hfind hsemst
                (.inr (.inl ⟨hv, soinIdv, hp, by
                  show st.soins.any (fun q => q.id == soinIdv) = true
                  rw [hs]
                  exact hexs, rfl⟩)))
        · have hE : upsert_suivi_quotidien_field db sid ag "soins_id" value
              = (db, .error (.soinNotFound soinIdv)) := by
            rw [upsert_dispatch db sid ag _ value hsem hbat]
            simp only [hkey]
            rw [upsertNew_soins, if_neg hv]
            simp only [hp]
            rw [if_neg hexs]
          rw [hE]
          exact hE
      | none =>
        have hE1 : upsert_suivi_quotidien_field db sid ag "soins_id" value
            = ({ db with
                    suivi_quotidien := db.suivi_quotidien ++
                      [rowOfCreate db { createBaseOf sid ag with soins_id := (none : Option Int) }],
                    next_suivi_id := db.next_suivi_id + 1 },
               .ok (rowOfCreate db { createBaseOf sid ag with soins_id := (none : Option Int) })) := by
          rw [upsert_dispatch db sid ag _ value hsem hbat]
          simp only [hkey]
          rw [upsertNew_soins, if_neg hv]
          simp only [hp]
          exact repoCreate_first db db _ (semaineExists_of_find hsem) hage hkey rfl rfl rfl rfl
        rw [hE1]
        exact upsert_second_create db db sid ag "soins_id" value
          { createBaseOf sid ag with soins_id := (none : Option Int) } hinv hsem hbat hkey
          rfl rfl hage rfl rfl rfl rfl rfl hinv rfl
          (fun st hinvst hfind hsemst _hs =>
            upsertExisting_noop_soins st b.bande_id value
              { updateBaseOf
                  (rowOfCreate db { createBaseOf sid ag with soins_id := (none : Option Int) }).id
                  (rowOfCreate db { createBaseOf sid ag with soins_id := (none : Option Int) }) with
                soins_id := (none : Option Int) }
              hinvst hfind hsemst (.inr (.inr ⟨hv, hp, rfl⟩)))
  by_cases hf4 : field = "soins_quantite"
  · subst hf4
    have hE1 : upsert_suivi_quotidien_field db sid ag "soins_quantite" value
        = ({ db with
              suivi_quotidien := db.suivi_quotidien ++
                [rowOfCreate db { createBaseOf sid ag with soins_quantite := if value = "" then none else some value }],
              next_suivi_id := db.next_suivi_id + 1 },
           .ok (rowOfCreate db { createBaseOf sid ag with soins_quantite := if value = "" then none else some value })) := by
      rw [upsert_dispatch db sid ag _ value hsem hbat]
      simp only [hkey]
      rw [upsertNew_quantite]
      exact repoCreate_first db db _ (semaineExists_of_find hsem) hage hkey rfl rfl rfl rfl
    rw [hE1]
    exact upsert_second_create db db sid ag "soins_quantite" value
      { createBaseOf sid ag with soins_quantite := if value = "" then none else some value }
      hinv hsem hbat hkey rfl rfl hage rfl rfl rfl rfl rfl hinv rfl
      (fun st hinvst hfind hsemst _hs =>
        upsertExisting_noop_quantite st b.bande_id value
          { updateBaseOf
              (rowOfCreate db { createBaseOf sid ag with soins_quantite := if value = "" then none else some value }).id
              (rowOfCreate db { createBaseOf sid ag with soins_quantite := if value = "" then none else some value }) with
            soins_quantite := if value = "" then none else some value }
          hinvst hfind hsemst rfl)
  by_cases hf5 : field = "analyses"
  · subst hf5
    have hE1 : upsert_suivi_quotidien_field db sid ag "analyses" value
        = ({ db with
              suivi_quotidien := db.suivi_quotidien ++
                [rowOfCreate db { createBaseOf sid ag with analyses := if value = "" then none else some value }],
              next_suivi_id := db.next_suivi_id + 1 },
           .ok (rowOfCreate db { createBaseOf sid ag with analyses := if value = "" then none else some value })) := by
      rw [upsert_dispatch db sid ag _ value hsem hbat]
      simp only [hkey]
      rw [upsertNew_analyses]
      exact repoCreate_first db db _ (semaineExists_of_find hsem) hage hkey rfl rfl rfl rfl
    rw [hE1]
    exact upsert_second_create db db sid ag "analyses" value
      { createBaseOf sid ag with analyses := if value = "" then none else some value }
      hinv hsem hbat hkey rfl rfl hage rfl rfl rfl rfl rfl hinv rfl
      (fun st hinvst hfind hsemst _hs =>
        upsertExisting_noop_analyses st b.bande_id value
          { updateBaseOf
              (rowOfCreate db { createBaseOf sid ag with analyses := if value = "" then none else some value }).id
              (rowOfCreate db { createBaseOf sid ag with analyses := if value = "" then none else some value }) with
            analyses := if value = "" then none else some value }
          hinvst hfind hsemst rfl)
  by_cases hf6 : field = "remarques"
  · subst hf6
    have hE1 : upsert_suivi_quotidien_field db sid ag "remarques" value
        = ({ db with
              suivi_quotidien := db.suivi_quotidien ++
                [rowOfCreate db { createBaseOf sid ag with remarques := if value = "" then none else some value }],
              next_suivi_id := db.next_suivi_id + 1 },
           .ok (rowOfCreate db { createBaseOf sid ag with remarques := if value = "" then none else some value })) := by
      rw [upsert_dispatch db sid ag _ value hsem hbat]
      simp only [hkey]
      rw [upsertNew_remarques]
      exact repoCreate_first db db _ (semaineExists_of_find hsem) hage hkey rfl rfl rfl rfl
    rw [hE1]
    exact upsert_second_create db db sid ag "remarques" value
      { createBaseOf sid ag with remarques := if value = "" then none else some value }
      hinv hsem hbat hkey rfl rfl hage rfl rfl rfl rfl rfl hinv rfl
      (fun st hinvst hfind hsemst _hs =>
        upsertExisting_noop_remarques st b.bande_id value
          { updateBaseOf
              (rowOfCreate db { createBaseOf sid ag with remarques := if value = "" then none else some value }).id
              (rowOfCreate db { createBaseOf sid ag with remarques := if value = "" then none else some value }) with
            remarques := if value = "" then none else some value }
          hinvst hfind hsemst rfl)
  have hE : upsert_suivi_quotidien_field db sid ag field value
      = (db, .error (.unknownField field)) := by
    rw [upsert_dispatch db sid ag field value hsem hbat]
    simp only [hkey]
    exact upsertNew_unknown db b.bande_id sid ag field value hf1 hf2 hf3 hf4 hf5 hf6
  rw [hE]
  exact hE


/-- C5 counterexample: at `age = 0` (an address the schema can never
store, `CHECK (age > 0)`), each call of the consumption upsert issues the
ledger statement and then fails the insert, so the second call double-
counts: one call leaves the ledger at `900`, two calls leave it at `800`. -/
theorem upsert_idempotent_cx :
    contourOf (upsert_suivi_quotidien_field dbEmptyGrid 1 0 "alimentation_par_jour" "2").1 1
      = 900 ∧
    contourOf (upsert_suivi_quotidien_field
        (upsert_suivi_quotidien_field dbEmptyGrid 1 0 "alimentation_par_jour" "2").1
        1 0 "alimentation_par_jour" "2").1 1
      = 800 ∧
    (900 : Rat) ≠ 800 := by
  have h1 : (upsert_suivi_quotidien_field dbEmptyGrid 1 0 "alimentation_par_jour" "2").1.bandes
      = [{ id := 1, alimentation_contour := 900 }] := by decide
  have h2 : (upsert_suivi_quotidien_field
      (upsert_suivi_quotidien_field dbEmptyGrid 1 0 "alimentation_par_jour" "2").1
      1 0 "alimentation_par_jour" "2").1.bandes
      = [{ id := 1, alimentation_contour := 800 }] := by decide
  refine ⟨?_, ?_, by norm_num⟩
  · rw [contourOf, h1]
    simp
  · rw [contourOf, h2]
    simp

/-- C5 amended: on every store satisfying the schema invariants and at
every address with positive age — every address the grid exposes — the
upsert is idempotent: applying the same `(semaine_id, age, field, value)`
twice returns the same state and the same result as applying it once (the
second call's ledger delta is zero because it is recomputed against the
now-stored value).  At non-storable addresses (`age ≤ 0`) idempotence
fails for the consumption field: each call re-issues the ledger statement
and then fails the day write (see the counterexample). -/
theorem upsert_idempotent (db : DB) (semaine_id age : Int) (field value : String)
    (hinv : DBInv db) (hage : 0 < age) :
    upsert_suivi_quotidien_field
        (upsert_suivi_quotidien_field db semaine_id age field value).1
        semaine_id age field value
      = upsert_suivi_quotidien_field db semaine_id age field value := by
  cases hsem : findSemaine db semaine_id with
  | none =>
    have hE : upsert_suivi_quotidien_field db semaine_id age field value
        = (db, .error (.semaineNotFound semaine_id)) := by
      unfold upsert_suivi_quotidien_field
      simp only [hsem]
    rw [hE]
    exact hE
  | some s =>
    cases hbat : findBatiment db s.batiment_id with
    | none =>
      have hE : upsert_suivi_quotidien_field db semaine_id age field value
          = (db, .error .queryNoRows) := by
        unfold upsert_suivi_quotidien_field
        simp only [hsem, hbat]
      rw [hE]
      exact hE
    | some b =>
      cases hkey : findSuiviByKey db semaine_id age with
      | some ex =>
        exact upsert_idem_existing db semaine_id age field value hinv hsem hbat hkey
      | none =>
        exact upsert_idem_create db semaine_id age field value hinv hage hsem hbat hkey

/-- Witness for the amended C5: re-upserting `"2"` into the consumption
field at the grid address `(1, 1)` of the empty grid is a no-op. -/
theorem upsert_idempotent_w :
    (0 : Int) < 1 ∧
    upsert_suivi_quotidien_field
        (upsert_suivi_quotidien_field dbEmptyGrid 1 1 "alimentation_par_jour" "2").1
        1 1 "alimentation_par_jour" "2"
      = upsert_suivi_quotidien_field dbEmptyGrid 1 1 "alimentation_par_jour" "2" :=
  ⟨by decide,
   upsert_idempotent dbEmptyGrid 1 1 "alimentation_par_jour" "2"
     ⟨by decide, by decide, by decide, by decide, by decide, by decide, by decide⟩ (by decide)⟩


/-! ## Claim C4 — the materialized grid

`buildDays` facts, the `semaines_map` construction, and the loop of
`get_full_semaines_by_batiment`. -/

theorem buildDays_congr {db1 db2 : DB} (hs : db1.suivi_quotidien = db2.suivi_quotidien)
    (hso : db1.soins = db2.soins) (sid n : Int) :
    buildDays db1 sid n = buildDays db2 sid n := by
  unfold buildDays suiviRepoGetBySemaine detailsOfRow
  simp only [hs, hso]

/-- The 7 slots of one semaine: their count, ages, addresses, and the
persisted-or-virtual dichotomy. -/
theorem buildDays_spec (db : DB) (sid numero : Int) :
    (buildDays db sid numero).length = 7 ∧
    ∀ j (hj : j < (buildDays db sid numero).length),
      ((buildDays db sid numero).get ⟨j, hj⟩).age = (numero - 1) * 7 + 1 + (j : Int) ∧
      ((buildDays db sid numero).get ⟨j, hj⟩).semaine_id = sid ∧
      (((buildDays db sid numero).get ⟨j, hj⟩
            = virtualDay sid ((numero - 1) * 7 + 1 + (j : Int)) ∧
          ∀ r ∈ db.suivi_quotidien, r.semaine_id = sid →
            r.age ≠ (numero - 1) * 7 + 1 + (j : Int)) ∨
       ∃ r ∈ db.suivi_quotidien, r.semaine_id = sid ∧
         r.age = (numero - 1) * 7 + 1 + (j : Int) ∧
         (buildDays db sid numero).get ⟨j, hj⟩ = detailsOfRow db r) := by
  constructor
  · unfold buildDays
    simp only [List.length_map, List.length_range]
  · intro j hj
    have hget : (buildDays db sid numero).get ⟨j, hj⟩ =
        (match (suiviRepoGetBySemaine db sid).find?
            (fun d => d.age == (numero - 1) * 7 + 1 + (j : Int)) with
         | some d => d
         | none => virtualDay sid ((numero - 1) * 7 + 1 + (j : Int))) := by
      unfold buildDays
      simp only [List.get_eq_getElem, List.getElem_map, List.getElem_range, Int.ofNat_eq_coe]
    rw [hget]
    cases hfind : (suiviRepoGetBySemaine db sid).find?
        (fun d => d.age == (numero - 1) * 7 + 1 + (j : Int)) with
    | none =>
      refine ⟨rfl, rfl, .inl ⟨rfl, ?_⟩⟩
      intro r hr hrs hrage
      have hrf : detailsOfRow db r ∈ suiviRepoGetBySemaine db sid := by
        unfold suiviRepoGetBySemaine
        exact List.mem_map_of_mem _ (List.mem_filter.mpr ⟨hr, by simp [hrs]⟩)
      have hnd := List.find?_eq_none.mp hfind _ hrf
      simp only [Bool.not_eq_true, beq_eq_false_iff_ne, ne_eq] at hnd
      exact hnd (show r.age = (numero - 1) * 7 + 1 + (j : Int) from hrage)
    | some d =>
      have hd := List.find?_some hfind
      have hdm := List.mem_of_find?_eq_some hfind
      obtain ⟨r, ⟨hr, hrsid⟩, hrd⟩ :
          ∃ a, (a ∈ db.suivi_quotidien ∧ a.semaine_id = sid) ∧ detailsOfRow db a = d := by
        simpa [suiviRepoGetBySemaine] using hdm
      have hage : d.age = (numero - 1) * 7 + 1 + (j : Int) := by simpa using hd
      have hager : r.age = (numero - 1) * 7 + 1 + (j : Int) := by
        rw [← hrd] at hage
        exact hage
      refine ⟨hage, ?_, .inr ⟨r, hr, hrsid, hager, hrd.symm⟩⟩
      rw [← hrd]
      exact hrsid

theorem semMap_foldl_init_mem {L : List Semaine} {m : SemMap} {e : Int × Semaine}
    (he : e ∈ m) :
    e ∈ L.foldl (fun m q => semMapInsert m q.numero_semaine q) m := by
  induction L generalizing m with
  | nil => exact he
  | cons a t ih => exact ih (List.mem_cons_of_mem _ he)

theorem semMap_foldl_mem {L : List Semaine} {m : SemMap} {e : Int × Semaine}
    (he : e ∈ L.foldl (fun m q => semMapInsert m q.numero_semaine q) m) :
    e ∈ m ∨ ∃ q ∈ L, e = (q.numero_semaine, q) := by
  induction L generalizing m with
  | nil => exact .inl he
  | cons a t ih =>
    rcases ih he with h | ⟨q, hq, rfl⟩
    · rcases List.mem_cons.mp h with rfl | hm
      · exact .inr ⟨a, List.mem_cons_self a t, rfl⟩
      · exact .inl hm
    · exact .inr ⟨q, List.mem_cons_of_mem _ hq, rfl⟩

theorem semMap_foldl_mem_of {L : List Semaine} {m : SemMap} {q : Semaine}
    (hq : q ∈ L) :
    (q.numero_semaine, q) ∈ L.foldl (fun m q => semMapInsert m q.numero_semaine q) m := by
  induction L generalizing m with
  | nil => cases hq
  | cons a t ih =>
    rcases List.mem_cons.mp hq with rfl | hqt
    · show (q.numero_semaine, q) ∈ t.foldl (fun m q => semMapInsert m q.numero_semaine q)
          (semMapInsert m q.numero_semaine q)
      exact semMap_foldl_init_mem (List.mem_cons_self _ _)
    · show (q.numero_semaine, q) ∈ t.foldl (fun m q => semMapInsert m q.numero_semaine q)
          (semMapInsert m a.numero_semaine a)
      exact ih hqt

theorem semMapLookup_some_mem {m : SemMap} {n : Int} {sem : Semaine}
    (h : semMapLookup m n = some sem) : ∃ e ∈ m, e.1 = n ∧ e.2 = sem := by
  unfold semMapLookup at h
  cases hf : m.find? (fun e => e.1 == n) with
  | none =>
    rw [hf] at h
    cases h
  | some e =>
    rw [hf] at h
    refine ⟨e, List.mem_of_find?_eq_some hf, ?_, ?_⟩
    · have := List.find?_some hf
      simpa using this
    · simpa using h

theorem semMapLookup_none_spec {m : SemMap} {n : Int}
    (h : semMapLookup m n = none) : ∀ e ∈ m, e.1 ≠ n := by
  intro e he
  unfold semMapLookup at h
  cases hf : m.find? (fun e => e.1 == n) with
  | none =>
    have := List.find?_eq_none.mp hf e he
    simpa using this
  | some e' =>
    rw [hf] at h
    cases h

theorem semaineRepoCreate_of_checks (db : DB) (c : CreateSemaine)
    (h1 : batimentExists db c.batiment_id = true)
    (h2 : 1 ≤ c.numero_semaine) (h3 : c.numero_semaine ≤ 9)
    (h4 : db.semaines.any (fun q =>
      q.batiment_id == c.batiment_id && q.numero_semaine == c.numero_semaine) = false) :
    semaineRepoCreate db c =
      ({ db with
          semaines := db.semaines ++
            [{ id := db.next_semaine_id, batiment_id := c.batiment_id,
               numero_semaine := c.numero_semaine, poids := c.poids }],
          next_semaine_id := db.next_semaine_id + 1 },
       .ok { id := some db.next_semaine_id, batiment_id := c.batiment_id,
             numero_semaine := c.numero_semaine, poids := c.poids }) := by
  unfold semaineRepoCreate
  rw [if_neg (by simp [h1]), if_neg (by omega), if_neg (by simp [h4])]

/-- The `for numero_semaine in 1..=8` loop: when the batiment exists,
every numero lies in the schema's `1..9` window and the map correctly
reflects the stored semaines, the loop succeeds, appends one
`SemaineWithDetails` per numero (in order), never touches the day table,
and fills each element with that semaine's 7 day slots. -/
theorem fullSemainesLoop_spec (bid : Int) (numeros : List Int) :
    ∀ (db : DB) (m : SemMap) (acc : List SemaineWithDetails),
      batimentExists db bid = true →
      (∀ n ∈ numeros, 1 ≤ n ∧ n ≤ 9) →
      (∀ n sem, semMapLookup m n = some sem →
        sem.numero_semaine = n ∧ ∃ sid, sem.id = some sid) →
      (∀ n, semMapLookup m n = none →
        db.semaines.any (fun q => q.batiment_id == bid && q.numero_semaine == n) = false) →
      ∃ db' rest,
        fullSemainesLoop bid numeros db m acc = (db', .ok (acc ++ rest)) ∧
        db'.suivi_quotidien = db.suivi_quotidien ∧
        db'.soins = db.soins ∧
        rest.length = numeros.length ∧
        ∀ k (hk : k < numeros.length) (hk2 : k < rest.length),
          (rest.get ⟨k, hk2⟩).numero_semaine = numeros.get ⟨k, hk⟩ ∧
          ∃ sid, (rest.get ⟨k, hk2⟩).suivi_quotidien
            = buildDays db' sid (numeros.get ⟨k, hk⟩) := by
  induction numeros with
  | nil =>
    intro db m acc _ _ _ _
    exact ⟨db, [], by simp [fullSemainesLoop], rfl, rfl, rfl,
      fun k hk _ => absurd hk (Nat.not_lt_zero k)⟩
  | cons n ns ih =>
    intro db m acc hbat hrange hI1 hI2
    cases hlk : semMapLookup m n with
    | some sem =>
      obtain ⟨hnum, sid, hsid⟩ := hI1 n sem hlk
      obtain ⟨db', rest', hloop, hsuivi, hsoins, hlen, hspec⟩ :=
        ih db m (acc ++ [semaineDetails db sem]) hbat
          (fun x hx => hrange x (List.mem_cons_of_mem _ hx)) hI1 hI2
      refine ⟨db', semaineDetails db sem :: rest', ?_, hsuivi, hsoins, by simp [hlen], ?_⟩
      · show fullSemainesLoop bid (n :: ns) db m acc
            = (db', .ok (acc ++ semaineDetails db sem :: rest'))
        unfold fullSemainesLoop
        simp only [hlk]
        rw [hloop]
        simp
      · intro k hk hk2
        cases k with
        | zero =>
          refine ⟨hnum, sid, ?_⟩
          show (match sem.id with
            | some s0 => buildDays db s0 sem.numero_semaine
            | none => []) = buildDays db' sid n
          simp only [hsid]
          rw [hnum]
          exact buildDays_congr hsuivi.symm hsoins.symm sid n
        | succ k' =>
          have hk' : k' < ns.length := by simpa using hk
          have hk2' : k' < rest'.length := by simpa using hk2
          exact hspec k' hk' hk2'
    | none =>
      have hr := hrange n (List.mem_cons_self n ns)
      obtain ⟨db1, hdb1⟩ : ∃ d : DB, d = { db with
          semaines := db.semaines ++
            [{ id := db.next_semaine_id, batiment_id := bid, numero_semaine := n, poids := none }],
          next_semaine_id := db.next_semaine_id + 1 } := ⟨_, rfl⟩
      obtain ⟨newSem, hnew⟩ : ∃ s0 : Semaine,
          s0 = { id := some db.next_semaine_id, batiment_id := bid,
                 numero_semaine := n, poids := none } := ⟨_, rfl⟩
      have hcreate : semaineRepoCreate db
          { batiment_id := bid, numero_semaine := n, poids := none } = (db1, .ok newSem) := by
        rw [hdb1, hnew]
        exact semaineRepoCreate_of_checks db _ hbat hr.1 hr.2 (hI2 n hlk)
      have hbat1 : batimentExists db1 bid = true := by
        rw [hdb1]
        exact hbat
      have hI1' : ∀ n' sem', semMapLookup ((n, newSem) :: m) n' = some sem' →
          sem'.numero_semaine = n' ∧ ∃ sid, sem'.id = some sid := by
        intro n' sem' h'
        unfold semMapLookup at h'
        cases hb : ((n : Int) == n') with
        | true =>
          rw [List.find?_cons_of_pos _ (by simpa using hb)] at h'
          obtain rfl : newSem = sem' := by simpa using h'
          refine ⟨?_, db.next_semaine_id, ?_⟩
          · rw [hnew]
            exact beq_iff_eq.mp hb
          · rw [hnew]
        | false =>
          rw [List.find?_cons_of_neg _ (by simpa using hb)] at h'
          exact hI1 n' sem' h'
      have hI2' : ∀ n', semMapLookup ((n, newSem) :: m) n' = none →
          db1.semaines.any (fun q => q.batiment_id == bid && q.numero_semaine == n') = false := by
        intro n' h'
        unfold semMapLookup at h'
        cases hb : ((n : Int) == n') with
        | true =>
          rw [List.find?_cons_of_pos _ (by simpa using hb)] at h'
          simp at h'
        | false =>
          rw [List.find?_cons_of_neg _ (by simpa using hb)] at h'
          have hold := hI2 n' h'
          rw [hdb1]
          show (db.semaines ++ [({ id := db.next_semaine_id, batiment_id := bid, numero_semaine := n, poids := none } : SemaineRow)]).any (fun q => q.batiment_id == bid && q.numero_semaine == n') = false
          rw [List.any_append, hold]
          simp [hb]
      obtain ⟨db', rest', hloop, hsuivi1, hsoins1, hlen, hspec⟩ :=
        ih db1 ((n, newSem) :: m) (acc ++ [semaineDetails db1 newSem]) hbat1
          (fun x hx => hrange x (List.mem_cons_of_mem _ hx)) hI1' hI2'
      have hsu1 : db1.suivi_quotidien = db.suivi_quotidien := by rw [hdb1]
      have hso1 : db1.soins = db.soins := by rw [hdb1]
      refine ⟨db', semaineDetails db1 newSem :: rest', ?_, hsuivi1.trans hsu1,
        hsoins1.trans hso1, by simp [hlen], ?_⟩
      · show fullSemainesLoop bid (n :: ns) db m acc
            = (db', .ok (acc ++ semaineDetails db1 newSem :: rest'))
        unfold fullSemainesLoop
        simp only [hlk, hcreate, semMapInsert]
        rw [hloop]
        simp
      · intro k hk hk2
        cases k with
        | zero =>
          refine ⟨?_, db.next_semaine_id, ?_⟩
          · show newSem.numero_semaine = n
            rw [hnew]
          · show (match newSem.id with
              | some s0 => buildDays db1 s0 newSem.numero_semaine
              | none => []) = buildDays db' (db.next_semaine_id) n
            simp only [hnew]
            exact buildDays_congr hsuivi1.symm hsoins1.symm db.next_semaine_id n
        | succ k' =>
          have hk' : k' < ns.length := by simpa using hk
          have hk2' : k' < rest'.length := by simpa using hk2
          exact hspec k' hk' hk2'


theorem semaineRepoGetByBatiment_mem {db : DB} {bid : Int} {sem : Semaine}
    (h : sem ∈ semaineRepoGetByBatiment db bid) :
    ∃ q ∈ db.semaines, q.batiment_id = bid ∧
      sem = { id := some q.id, batiment_id := q.batiment_id,
              numero_semaine := q.numero_semaine, poids := q.poids } := by
  unfold semaineRepoGetByBatiment at h
  obtain ⟨q, hq, rfl⟩ := List.mem_map.mp h
  obtain ⟨hq1, hq2⟩ := List.mem_filter.mp hq
  exact ⟨q, hq1, by simpa using hq2, rfl⟩

theorem semaineRepoGetByBatiment_mem_of {db : DB} {bid : Int} {q : SemaineRow}
    (hq : q ∈ db.semaines) (hb : q.batiment_id = bid) :
    ({ id := some q.id, batiment_id := q.batiment_id,
       numero_semaine := q.numero_semaine, poids := q.poids } : Semaine)
      ∈ semaineRepoGetByBatiment db bid := by
  unfold semaineRepoGetByBatiment
  exact List.mem_map_of_mem _ (List.mem_filter.mpr ⟨hq, by simp [hb]⟩)

/-- C4 counterexample: on an id with no batiment row the materializer does
not return a grid at all — the first eager create fails validation. -/
theorem full_semaines_missing_batiment_cx :
    batimentExists dbEmptyGrid 99 = false ∧
    get_full_semaines_by_batiment dbEmptyGrid 99
      = (dbEmptyGrid, .error (.validationError "batiment_id")) :=
  ⟨by decide, by rfl⟩

/-- C4 amended (existing batiment): for every batiment present in the
`batiments` table, `get_full_semaines_by_batiment` succeeds and returns
exactly 8 semaines with `numero_semaine` `1..8` in increasing order, each
carrying exactly 7 day slots with ages `(numero-1)*7+1 .. (numero-1)*7+7`,
regardless of how many semaines or day rows are persisted; the day table
is never written, and every slot is either the persisted day at its
address or — exactly when no day row exists there — the all-null virtual
day. -/
theorem full_semaines_grid (db : DB) (bid : Int)
    (hbat : batimentExists db bid = true) :
    ∃ db' l, get_full_semaines_by_batiment db bid = (db', .ok l) ∧
      db'.suivi_quotidien = db.suivi_quotidien ∧
      l.length = 8 ∧
      ∀ i (hi : i < l.length),
        (l.get ⟨i, hi⟩).numero_semaine = (i : Int) + 1 ∧
        ∃ sid : Int,
          (l.get ⟨i, hi⟩).suivi_quotidien.length = 7 ∧
          ∀ j (hj : j < (l.get ⟨i, hi⟩).suivi_quotidien.length),
            ((l.get ⟨i, hi⟩).suivi_quotidien.get ⟨j, hj⟩).age
                = (i : Int) * 7 + 1 + (j : Int) ∧
            ((l.get ⟨i, hi⟩).suivi_quotidien.get ⟨j, hj⟩).semaine_id = sid ∧
            (((l.get ⟨i, hi⟩).suivi_quotidien.get ⟨j, hj⟩
                  = virtualDay sid ((i : Int) * 7 + 1 + (j : Int)) ∧
                ∀ r ∈ db.suivi_quotidien, r.semaine_id = sid →
                  r.age ≠ (i : Int) * 7 + 1 + (j : Int)) ∨
             ∃ r ∈ db.suivi_quotidien, r.semaine_id = sid ∧
               r.age = (i : Int) * 7 + 1 + (j : Int) ∧
               (l.get ⟨i, hi⟩).suivi_quotidien.get ⟨j, hj⟩ = detailsOfRow db r) := by
  have hI10 : ∀ n sem, semMapLookup
      ((semaineRepoGetByBatiment db bid).foldl
        (fun m s => semMapInsert m s.numero_semaine s) []) n = some sem →
      sem.numero_semaine = n ∧ ∃ sid, sem.id = some sid := by
    intro n sem h
    obtain ⟨e, hem, he1, he2⟩ := semMapLookup_some_mem h
    rcases semMap_foldl_mem hem with h0 | ⟨q0, hq0, rfl⟩
    · cases h0
    · obtain ⟨q, _, _, rfl⟩ := semaineRepoGetByBatiment_mem hq0
      refine ⟨?_, q.id, ?_⟩
      · rw [← he2]
        exact he1
      · rw [← he2]
  have hI20 : ∀ n, semMapLookup
      ((semaineRepoGetByBatiment db bid).foldl
        (fun m s => semMapInsert m s.numero_semaine s) []) n = none →
      db.semaines.any (fun q => q.batiment_id == bid && q.numero_semaine == n) = false := by
    intro n h
    refine List.any_eq_false.mpr ?_
    intro q hq hpq
    have hb : q.batiment_id = bid ∧ q.numero_semaine = n := by simpa using hpq
    have hmem : ((q.numero_semaine : Int),
        ({ id := some q.id, batiment_id := q.batiment_id,
           numero_semaine := q.numero_semaine, poids := q.poids } : Semaine))
        ∈ (semaineRepoGetByBatiment db bid).foldl
            (fun m s => semMapInsert m s.numero_semaine s) ([] : SemMap) :=
      semMap_foldl_mem_of (semaineRepoGetByBatiment_mem_of hq hb.1)
    have hne := semMapLookup_none_spec h _ hmem
    exact hne (by simpa using hb.2)
  obtain ⟨db', rest, hloop, hsuivi, hsoins, hlen, hspec⟩ :=
    fullSemainesLoop_spec bid [1, 2, 3, 4, 5, 6, 7, 8] db
      ((semaineRepoGetByBatiment db bid).foldl
        (fun m s => semMapInsert m s.numero_semaine s) [])
      [] hbat (by decide) hI10 hI20
  refine ⟨db', rest, ?_, hsuivi, by simpa using hlen, ?_⟩
  · show fullSemainesLoop bid [1, 2, 3, 4, 5, 6, 7, 8] db
        ((semaineRepoGetByBatiment db bid).foldl
          (fun m s => semMapInsert m s.numero_semaine s) [])
        [] = (db', .ok rest)
    simpa using hloop
  · intro i hi
    have hi8 : i < 8 := by
      rw [hlen] at hi
      simpa using hi
    have hki : i < ([1, 2, 3, 4, 5, 6, 7, 8] : List Int).length := by simpa using hi8
    have hnum : ([1, 2, 3, 4, 5, 6, 7, 8] : List Int).get ⟨i, hki⟩ = (i : Int) + 1 := by
      interval_cases i <;> rfl
    obtain ⟨hn, sid, hdays⟩ := hspec i hki hi
    rw [hnum] at hn hdays
    have hdays2 : (rest.get ⟨i, hi⟩).suivi_quotidien = buildDays db sid ((i : Int) + 1) :=
      hdays.trans (buildDays_congr hsuivi hsoins sid ((i : Int) + 1))
    obtain ⟨hlen7, hslots⟩ := buildDays_spec db sid ((i : Int) + 1)
    rw [show ((i : Int) + 1 - 1) = (i : Int) from by ring] at hslots
    refine ⟨hn, sid, ?_, ?_⟩
    · rw [hdays2]
      exact hlen7
    · intro j hj
      have hj2 : j < (buildDays db sid ((i : Int) + 1)).length := by
        rw [← hdays2]
        exact hj
      have hget := List.get_of_eq hdays2 ⟨j, hj⟩
      obtain ⟨ha, hs, hd⟩ := hslots j hj2
      refine ⟨?_, ?_, ?_⟩
      · rw [hget]
        exact ha
      · rw [hget]
        exact hs
      · rcases hd with ⟨hv, habs⟩ | ⟨r, hr, h1, h2, h3⟩
        · exact .inl ⟨by rw [hget]; exact hv, habs⟩
        · exact .inr ⟨r, hr, h1, h2, by rw [hget]; exact h3⟩

/-- Witness for the amended C4: the batiment of the one-semaine empty
grid materializes to the full 8 × 7 grid without touching the day table. -/
theorem full_semaines_grid_w :
    batimentExists dbEmptyGrid 1 = true ∧
    (∃ db' l, get_full_semaines_by_batiment dbEmptyGrid 1 = (db', .ok l) ∧
      db'.suivi_quotidien = dbEmptyGrid.suivi_quotidien ∧
      l.length = 8 ∧
      ∀ i (hi : i < l.length),
        (l.get ⟨i, hi⟩).numero_semaine = (i : Int) + 1 ∧
        ∃ sid : Int,
          (l.get ⟨i, hi⟩).suivi_quotidien.length = 7 ∧
          ∀ j (hj : j < (l.get ⟨i, hi⟩).suivi_quotidien.length),
            ((l.get ⟨i, hi⟩).suivi_quotidien.get ⟨j, hj⟩).age
                = (i : Int) * 7 + 1 + (j : Int) ∧
            ((l.get ⟨i, hi⟩).suivi_quotidien.get ⟨j, hj⟩).semaine_id = sid ∧
            (((l.get ⟨i, hi⟩).suivi_quotidien.get ⟨j, hj⟩
                  = virtualDay sid ((i : Int) * 7 + 1 + (j : Int)) ∧
                ∀ r ∈ dbEmptyGrid.suivi_quotidien, r.semaine_id = sid →
                  r.age ≠ (i : Int) * 7 + 1 + (j : Int)) ∨
             ∃ r ∈ dbEmptyGrid.suivi_quotidien, r.semaine_id = sid ∧
               r.age = (i : Int) * 7 + 1 + (j : Int) ∧
               (l.get ⟨i, hi⟩).suivi_quotidien.get ⟨j, hj⟩ = detailsOfRow dbEmptyGrid r)) :=
  ⟨by decide, full_semaines_grid dbEmptyGrid 1 (by decide)⟩


end TechnicienApp
